import Mathlib

/-!
Verification development for the swirl-lm scalar-transport orchestrator
(`swirl_lm/equations/scalars.py`).

Fields over the local partition (including halo cells) are embedded as
functions from a cell index to a rational value; state maps are embedded as
partial functions from variable names to fields, mirroring Python
dictionaries.  Fallible dictionary indexing and the fatal configuration
error of `prediction_step` are embedded in the `Except` monad.  External
collaborators that are not part of the excerpt (the ghost-cell exchange
primitive, the boundary-condition and source key managers, the immersed
boundary method, the sub-grid-scale model, the per-scalar physics closures)
are modelled from the specification; each such definition carries a doc
comment saying so.
-/

namespace SwirlLM

/-- A per-cell scalar field over the local partition, halo included. -/
abbrev Field := Nat → ℚ

/-- A state map: Python dictionary from variable name to field. -/
abbrev StateMap := String → Option Field

/-- Density key (`common.KEY_RHO`). -/
def KEY_RHO : String := "rho"

/-- Velocity key (`common.KEY_U`). -/
def KEY_U : String := "u"

/-- Velocity key (`common.KEY_V`). -/
def KEY_V : String := "v"

/-- Velocity key (`common.KEY_W`). -/
def KEY_W : String := "w"

/-- Errors surfaced by the orchestrator: Python `KeyError` from dictionary
indexing and `ValueError` from the unsupported-scheme check. -/
inductive Err where
  | keyError (key : String)
  | valueError (msg : String)
deriving DecidableEq

/-- Fallible dictionary indexing `m[k]`. -/
def getF (m : StateMap) (k : String) : Except Err Field :=
  match m k with
  | some f => Except.ok f
  | none => Except.error (Err.keyError k)

/-- Dictionary assignment `m[k] = v`. -/
def mapInsert (m : StateMap) (k : String) (v : Field) : StateMap :=
  fun x => if x = k then some v else m x

/-- The one-entry dictionary. -/
def singletonMap (k : String) (v : Field) : StateMap :=
  fun x => if x = k then some v else none

/-- Python `m.update(upd)`: entries of `upd` override entries of `m`. -/
def dict_update (m upd : StateMap) : StateMap :=
  fun k => match upd k with
  | some v => some v
  | none => m k

/-- The empty dictionary. -/
def emptyMap : StateMap := fun _ => none

/-- Modelled from the spec: `common_ops.average` (not in the excerpt), the
arithmetic average of two fields used for the mid-point states. -/
def average (a b : Field) : Field := fun i => (a i + b i) / 2

/-- Elementwise `tf.zeros_like`. -/
def zeros_like (f : Field) : Field := fun _ => 0

/-- Elementwise `tf.ones_like`. -/
def ones_like (f : Field) : Field := fun _ => 1

/-- The constant field. -/
def constF (q : ℚ) : Field := fun _ => q

/-- Solver mode (`thermodynamics_pb2.Thermodynamics`): the code only
distinguishes `ANELASTIC` from everything else. -/
inductive SolverMode where
  | anelastic
  | lowMach
deriving DecidableEq

/-- Time-integration scheme selector (`numerics_pb2.TimeIntegrationScheme`). -/
inductive TimeIntegrationScheme where
  | timeSchemeCnExplicitIteration
  | timeSchemeRk3
  | timeSchemeUnspecified
deriving DecidableEq

/-- Printable name of a scheme, used in the `ValueError` message. -/
def schemeName : TimeIntegrationScheme → String
  | TimeIntegrationScheme.timeSchemeCnExplicitIteration =>
      "TIME_SCHEME_CN_EXPLICIT_ITERATION"
  | TimeIntegrationScheme.timeSchemeRk3 => "TIME_SCHEME_RK3"
  | TimeIntegrationScheme.timeSchemeUnspecified => "TIME_SCHEME_UNSPECIFIED"

/-- One scalar's configuration entry (`params.scalars`). -/
structure ScalarCfg where
  name : String
  solve_scalar : Bool

/-- The configuration surface consumed by `Scalars`
(`parameters_lib.SwirlLMParameters`, external; only the fields the excerpt
reads are embedded). -/
structure SwirlLMParameters where
  dt : ℚ
  halo_width : Nat
  periodic_dims : List Bool
  solver_mode : SolverMode
  use_sgs : Bool
  transport_scalars_names : List String
  scalars : List ScalarCfg
  bc : StateMap
  diffusivity : String → ℚ
  scalar_time_integration_scheme : String → TimeIntegrationScheme

/-- Modelled from the spec: the sub-grid-scale turbulence closure
(`sgs_model.SgsModel`, not in the excerpt), an opaque map from the scalar
field, the three velocity components and the helper states to an eddy
diffusivity field. -/
structure SgsModel where
  turbulent_diffusivity : Field → Field × Field × Field → StateMap → Field

/-- Modelled from the spec: a per-scalar physics closure (one of the
source-function variants, not in the excerpt) exposing convection, diffusion
and source operations, each given the scalar field, the states and the
helper states. -/
structure ScalarModel where
  convection_fn : Field → StateMap → StateMap → Field × Field × Field
  diffusion_fn : Field → StateMap → StateMap → Field × Field × Field
  source_fn : Field → StateMap → StateMap → Field

/-- Modelled from the spec: the immersed-boundary collaborator
(`immersed_boundary_method.ImmersedBoundaryMethod`, not in the excerpt).
`updateForcing` and `updateStates` return a corrected field for every name
in the presented map, so both are embedded entrywise by a per-name value
correction. -/
structure ImmersedBoundaryMethod where
  rhs_tag : String → String
  forcing_val : String → Field → StateMap → Field
  states_val : String → Field → StateMap → StateMap → Field

/-- The boundary-specific name under which the tentative RHS is presented. -/
def ImmersedBoundaryMethod.ib_rhs_name (ib : ImmersedBoundaryMethod)
    (name : String) : String :=
  ib.rhs_tag name

/-- Modelled from the spec: `updateForcing` presents the tentative RHS map
and returns the corrected RHS for each of its names. -/
def ImmersedBoundaryMethod.update_forcing (ib : ImmersedBoundaryMethod)
    (fields : StateMap) (helper_states : StateMap) : StateMap :=
  fun k => (helper_states k).map (fun f => ib.forcing_val k f fields)

/-- Modelled from the spec: `updateStates` corrects each presented field,
keyed by the same names. -/
def ImmersedBoundaryMethod.update_states (ib : ImmersedBoundaryMethod)
    (fields : StateMap) (additional_states : StateMap) (bc : StateMap) :
    StateMap :=
  fun k => (fields k).map (fun f => ib.states_val k f additional_states bc)

/-- Modelled from the spec: the debug hook (`components_debug`, not in the
excerpt), mapping a scalar name, its debug terms and the optional turbulent
diffusivity to extra output entries. -/
structure ComponentsDebug where
  update_scalar_terms : String → StateMap → Option Field → StateMap

/-- The local grid geometry: which cell indices are halo (ghost) cells.
The halo predicate is fixed for the whole run. -/
structure Grid where
  isHalo : Nat → Bool

/-- Modelled from the spec: the ghost-cell exchange primitive
(`halo_exchange.inplace_halo_exchange`, not in the excerpt).  Per the spec it
returns a field of identical shape with the outer halo layers replaced
according to the boundary condition and every interior cell kept.  The
boundary condition is modelled as the field of prescribed halo values; the
neighbor-copy part of the contract is folded into those values.  The
periodicity flags and halo width are threaded through but the halo set they
induce is abstracted into the grid's halo predicate. -/
def inplace_halo_exchange (grid : Grid) (periodic_dims : List Bool)
    (bc_f : Field) (width : Nat) (f : Field) : Field :=
  fun i => if grid.isHalo i then bc_f i else f i

/-- The scalar-transport orchestrator (`Scalars.__init__` fixed parts):
configuration plus the collaborators bound at construction. -/
structure Scalars where
  params : SwirlLMParameters
  scalar_model : String → ScalarModel
  sgs_model : SgsModel
  ib : Option ImmersedBoundaryMethod
  dbg : Option ComponentsDebug

/-- The per-scalar source registry: name, then optionally-registered field
(`self._source`: a present key may still hold `None`). -/
abbrev SourceMap := String → Option (Option Field)

/-- The mutable registries held by the `Scalars` object: the
boundary-condition registry `self._bc` and the source registry
`self._source`, threaded explicitly. -/
@[ext]
structure ScalarsState where
  bc : StateMap
  source : SourceMap

/-- `Scalars.__init__` registry initialization: `self._bc` keeps exactly the
configured boundary entries whose name is a transported scalar;
`self._source` maps every solved scalar to `None`. -/
def initScalarsState (params : SwirlLMParameters) : ScalarsState :=
  { bc := fun k =>
      if params.transport_scalars_names.contains k then params.bc k else none,
    source := fun k =>
      if ((params.scalars.filter (fun s => s.solve_scalar)).map
          (fun s => s.name)).contains k
      then some none else none }

/-- The additional-states key carrying a variable's boundary values. -/
def bcKey (varname : String) : String := "bc_" ++ varname

/-- The additional-states key carrying a variable's external source. -/
def srcKey (varname : String) : String := "src_" ++ varname

/-- Modelled from the spec:
`BoundaryConditionKeysHelper.update_helper_variable_from_additional_states`
(not in the excerpt).  For each variable already in the registry it pulls
the boundary values supplied in the additional states under that variable's
boundary key, keeping the previous entry when none are supplied; it adds no
new variables. -/
def bc_manager_update (additional_states : StateMap) (halo_width : Nat)
    (bc : StateMap) : StateMap :=
  fun k => (bc k).map (fun v => (additional_states (bcKey k)).getD v)

/-- Modelled from the spec:
`SourceKeysHelper.update_helper_variable_from_additional_states` merged via
`dict.update` (not in the excerpt).  For each scalar in the registry it
registers the forcing supplied in the additional states under that scalar's
source key, keeping the previous entry when none is supplied. -/
def src_manager_update (additional_states : StateMap) (source : SourceMap) :
    SourceMap :=
  fun k => (source k).map (fun v =>
    match additional_states (srcKey k) with
    | some g => some g
    | none => v)

/-- `Scalars.prestep`: refreshes the boundary-condition and source
registries from the additional states. -/
def Scalars.prestep (S : Scalars) (st : ScalarsState)
    (additional_states : StateMap) : ScalarsState :=
  { bc := bc_manager_update additional_states S.params.halo_width st.bc,
    source := src_manager_update additional_states st.source }

/-- `Scalars.exchange_scalar_halos`: looks the variable's boundary condition
up in the current registry (`KeyError` when absent) and delegates to the
exchange primitive. -/
def Scalars.exchange_scalar_halos (S : Scalars) (st : ScalarsState)
    (grid : Grid) (f : Field) (name : String) : Except Err Field :=
  match st.bc name with
  | some bc_f =>
      Except.ok
        (inplace_halo_exchange grid S.params.periodic_dims bc_f
          S.params.halo_width f)
  | none => Except.error (Err.keyError name)

/-- The inner `scalar_transport_equation` of `_scalar_update`: the
right-hand side of a scalar transport equation at one cell. -/
def scalar_transport_equation (conv_x conv_y conv_z diff_x diff_y diff_z
    src : ℚ) : ℚ :=
  -(conv_x + conv_y + conv_z) + (diff_x + diff_y + diff_z) + src

/-- Source resolution at the head of `_scalar_update`: the registered
external source when present, an all-zero field shaped like density
otherwise; `KeyError` when the scalar has no registry key at all. -/
def resolve_source (st : ScalarsState) (sc_name : String)
    (states : StateMap) : Except Err Field :=
  match st.source sc_name with
  | none => Except.error (Err.keyError sc_name)
  | some (some f) => Except.ok f
  | some none =>
      match states KEY_RHO with
      | none => Except.error (Err.keyError KEY_RHO)
      | some rho => Except.ok (zeros_like rho)

/-- The helper-states dictionary presented to the immersed-boundary
`update_forcing` in `_scalar_update`: the tentative RHS under its
boundary-specific name, plus the interior/boundary masks when present in the
additional states. -/
def ib_helper_states (rhs_name : String) (rhs : Field)
    (additional_states : StateMap) : StateMap :=
  let helper0 : StateMap := singletonMap rhs_name rhs
  let helper1 :=
    match additional_states ("ib_interior_mask") with
    | some m => dict_update helper0 (singletonMap ("ib_interior_mask") m)
    | none => helper0
  match additional_states ("ib_boundary") with
  | some m => dict_update helper1 (singletonMap ("ib_boundary") m)
  | none => helper1

/-- The immersed-boundary forcing substitution at the end of
`_scalar_update`: present the tentative conservative field and the RHS
helper states, then read the corrected RHS back under its boundary-specific
name (`KeyError` if the collaborator dropped it). -/
def ib_rhs_correction (ib : ImmersedBoundaryMethod) (sc_name : String)
    (rho phi rhs : Field) (additional_states : StateMap) :
    Except Err Field :=
  match (ib.update_forcing
      (singletonMap ("rho_" ++ sc_name) (fun i => rho i * phi i))
      (ib_helper_states (ib.ib_rhs_name ("rho_" ++ sc_name)) rhs
        additional_states))
      (ib.ib_rhs_name ("rho_" ++ sc_name)) with
  | some r => Except.ok r
  | none => Except.error (Err.keyError (ib.ib_rhs_name ("rho_" ++ sc_name)))

/-- The `scalar_function` closure returned by `_scalar_update` (non-debug
mode): closure convection, diffusion and internal source, the combined
source, the signed sum, then the immersed-boundary forcing substitution when
an immersed-boundary corrector is configured. -/
def Scalars.scalar_function (S : Scalars) (sc_name : String) (source : Field)
    (states additional_states : StateMap) (phi : Field) : Except Err Field :=
  let model := S.scalar_model sc_name
  let conv := model.convection_fn phi states additional_states
  let diff := model.diffusion_fn phi states additional_states
  let source_additional := model.source_fn phi states additional_states
  let source_all : Field := fun i => source i + source_additional i
  let rhs : Field := fun i =>
    scalar_transport_equation (conv.1 i) (conv.2.1 i) (conv.2.2 i)
      (diff.1 i) (diff.2.1 i) (diff.2.2 i) (source_all i)
  match S.ib with
  | none => Except.ok rhs
  | some ib =>
      match states KEY_RHO with
      | none => Except.error (Err.keyError KEY_RHO)
      | some rho => ib_rhs_correction ib sc_name rho phi rhs
          additional_states

/-- `Scalars._scalar_update` (non-debug mode): resolves the external source,
then returns the RHS closure. -/
def Scalars.scalar_update (S : Scalars) (st : ScalarsState) (sc_name : String)
    (states additional_states : StateMap) :
    Except Err (Field → Except Err Field) :=
  (resolve_source st sc_name states).map
    (fun src => S.scalar_function sc_name src states additional_states)

/-- The seven-entry debug dictionary returned by `_scalar_update` in debug
mode. -/
def debug_terms_map (conv diff : Field × Field × Field) (source_all : Field) :
    StateMap :=
  fun k =>
    if k = "conv_x" then some conv.1
    else if k = "conv_y" then some conv.2.1
    else if k = "conv_z" then some conv.2.2
    else if k = "diff_x" then some diff.1
    else if k = "diff_y" then some diff.2.1
    else if k = "diff_z" then some diff.2.2
    else if k = "source" then some source_all
    else none

/-- `Scalars._scalar_update` with `dbg=True`, applied to the scalar field:
the intermediate convection, diffusion and combined-source terms, unmodified
by the immersed-boundary correction. -/
def Scalars.scalar_update_terms (S : Scalars) (st : ScalarsState)
    (sc_name : String) (states additional_states : StateMap) (phi : Field) :
    Except Err StateMap :=
  (resolve_source st sc_name states).map (fun source =>
    let model := S.scalar_model sc_name
    let conv := model.convection_fn phi states additional_states
    let diff := model.diffusion_fn phi states additional_states
    let source_additional := model.source_fn phi states additional_states
    let source_all : Field := fun i => source i + source_additional i
    debug_terms_map conv diff source_all)

/-- The nested `time_advance_cn_explicit` of `prediction_step`: advance one
scalar under the Crank-Nicolson explicit-iteration scheme.  Anelastic mode
advances the primitive directly and halo-exchanges it; otherwise the
conservative variable is advanced, the primitive recomputed by division and
only the primitive halo-exchanged. -/
def Scalars.time_advance_cn_explicit (S : Scalars) (st : ScalarsState)
    (grid : Grid) (states states_0 : StateMap) (rhs : Field)
    (sc_name : String) : Except Err StateMap :=
  if S.params.solver_mode = SolverMode.anelastic then
    match states KEY_RHO, states_0 sc_name with
    | some rho, some sc0 =>
        let alpha : Field := fun i => (rho i)⁻¹
        let new_sc : Field := fun i => sc0 i + S.params.dt * rhs i * alpha i
        (S.exchange_scalar_halos st grid new_sc sc_name).map
          (fun ex => singletonMap sc_name ex)
    | none, _ => Except.error (Err.keyError KEY_RHO)
    | some _, none => Except.error (Err.keyError sc_name)
  else
    match states_0 ("rho_" ++ sc_name), states KEY_RHO with
    | some rho_sc0, some rho =>
        let new_sc : Field := fun i => rho_sc0 i + S.params.dt * rhs i
        let updated_vars := singletonMap ("rho_" ++ sc_name) new_sc
        let prim : Field := fun i => new_sc i / rho i
        (S.exchange_scalar_halos st grid prim sc_name).map
          (fun ex => dict_update updated_vars (singletonMap sc_name ex))
    | none, _ => Except.error (Err.keyError ("rho_" ++ sc_name))
    | some _, none => Except.error (Err.keyError KEY_RHO)

/-- One iteration of the scalar loop of `prediction_step`: diffusivity
(molecular, plus the turbulent part under SGS), helper states, the RHS
closure, the scheme check with its `ValueError`, the time advance, and the
debug hook. -/
def Scalars.prediction_scalar_step (S : Scalars) (st : ScalarsState)
    (grid : Grid) (states states_0 additional_states states_mid : StateMap)
    (acc : StateMap) (sc_name : String) : Except Err StateMap := do
  let sc_mid ← getF states_mid sc_name
  let diff_t_opt ←
    (if S.params.use_sgs then do
      let u ← getF states KEY_U
      let v ← getF states KEY_V
      let w ← getF states KEY_W
      pure (some (S.sgs_model.turbulent_diffusivity sc_mid (u, v, w)
        additional_states))
    else pure none)
  let diffusivity : Field :=
    match diff_t_opt with
    | some dtf => fun i => S.params.diffusivity sc_name + dtf i
    | none => fun i => S.params.diffusivity sc_name * ones_like sc_mid i
  let helper_states :=
    dict_update (singletonMap ("diffusivity") diffusivity) additional_states
  let scalar_rhs_fn ← S.scalar_update st sc_name states_mid helper_states
  match S.params.scalar_time_integration_scheme sc_name with
  | TimeIntegrationScheme.timeSchemeCnExplicitIteration => do
      let rhs ← scalar_rhs_fn sc_mid
      let updated_vars ← S.time_advance_cn_explicit st grid states states_0
        rhs sc_name
      let acc1 := dict_update acc updated_vars
      match S.dbg with
      | none => pure acc1
      | some dbg => do
          let terms ← S.scalar_update_terms st sc_name states_mid
            helper_states sc_mid
          pure (dict_update acc1 (dbg.update_scalar_terms sc_name terms
            diff_t_opt))
  | sch =>
      Except.error (Err.valueError
        ("Time integration scheme " ++ schemeName sch ++
          " is not supported yet for scalars."))

/-- The mid-point states of `prediction_step`: the latest states with
density, thermal density and every transported scalar replaced by the
average of their latest and previous values. -/
def Scalars.build_states_mid (S : Scalars) (states states_0 : StateMap) :
    Except Err StateMap := do
  let rho ← getF states KEY_RHO
  let rho0 ← getF states_0 KEY_RHO
  let rho_th ← getF states ("rho_thermal")
  let rho_th0 ← getF states_0 ("rho_thermal")
  let base :=
    mapInsert (mapInsert states KEY_RHO (average rho rho0)) ("rho_thermal")
      (average rho_th rho_th0)
  S.params.transport_scalars_names.foldlM
    (fun m sc_name => do
      let a ← getF states sc_name
      let b ← getF states_0 sc_name
      pure (mapInsert m sc_name (average a b))) base

/-- The result of a prediction or correction step: the returned state map
and the number of immersed-boundary state-correction invocations performed
during the call. -/
structure PredResult where
  scalars : StateMap
  ibCalls : Nat

/-- `Scalars.prediction_step`: mid-point states, the scalar loop, then the
immersed-boundary state correction applied once to the full set of updated
scalars when configured. -/
def Scalars.prediction_step (S : Scalars) (st : ScalarsState) (grid : Grid)
    (states states_0 additional_states : StateMap) :
    Except Err PredResult := do
  let states_mid ← S.build_states_mid states states_0
  let updated_scalars ← S.params.transport_scalars_names.foldlM
    (S.prediction_scalar_step st grid states states_0 additional_states
      states_mid)
    emptyMap
  match S.ib with
  | none => pure { scalars := updated_scalars, ibCalls := 0 }
  | some ib =>
      let corrected := ib.update_states updated_scalars additional_states st.bc
      pure { scalars := corrected, ibCalls := 1 }

/-- One iteration of the scalar loop of `correction_step`: recompute the
primitive by division, apply the immersed-boundary state correction when
configured, then halo-exchange. -/
def Scalars.correction_scalar_step (S : Scalars) (st : ScalarsState)
    (grid : Grid) (states additional_states : StateMap)
    (acc : StateMap × Nat) (sc_name : String) :
    Except Err (StateMap × Nat) := do
  let rho_sc ← getF states ("rho_" ++ sc_name)
  let rho ← getF states KEY_RHO
  let sc_buf : Field := fun i => rho_sc i / rho i
  let r ←
    (match S.ib with
    | none => pure (sc_buf, acc.2)
    | some ib =>
        match ib.update_states (singletonMap sc_name sc_buf)
          additional_states st.bc sc_name with
        | some g => pure (g, acc.2 + 1)
        | none => Except.error (Err.keyError sc_name))
  let ex ← S.exchange_scalar_halos st grid r.1 sc_name
  pure (dict_update acc.1 (singletonMap sc_name ex), r.2)

/-- `Scalars.correction_step`: recompute every primitive scalar from the
density-corrected conservative variable; `states_0` is not consulted. -/
def Scalars.correction_step (S : Scalars) (st : ScalarsState) (grid : Grid)
    (states states_0 additional_states : StateMap) :
    Except Err PredResult := do
  let res ← S.params.transport_scalars_names.foldlM
    (S.correction_scalar_step st grid states additional_states)
    (emptyMap, 0)
  pure { scalars := res.1, ibCalls := res.2 }

/-! Concrete instances used to exercise the embedding: a single transported
scalar named T with zero convection and diffusion, a closure-internal source
of one, unit density, and a Dirichlet boundary value of seven on the single
halo cell of a tiny grid. -/

/-- A physics closure with zero convection and diffusion and a
closure-internal source of one. -/
def exModel : ScalarModel :=
  { convection_fn := fun _ _ _ => (constF 0, constF 0, constF 0),
    diffusion_fn := fun _ _ _ => (constF 0, constF 0, constF 0),
    source_fn := fun _ _ _ => constF 1 }

/-- A turbulence closure returning zero eddy diffusivity. -/
def exSgs : SgsModel := { turbulent_diffusivity := fun _ _ _ => constF 0 }

/-- A low-Mach (non-anelastic) configuration with one transported scalar. -/
def exParams : SwirlLMParameters :=
  { dt := 1, halo_width := 1, periodic_dims := [false, false, false],
    solver_mode := SolverMode.lowMach, use_sgs := false,
    transport_scalars_names := ["T"],
    scalars := [{ name := "T", solve_scalar := true }],
    bc := singletonMap ("T") (constF 7),
    diffusivity := fun _ => 0,
    scalar_time_integration_scheme :=
      fun _ => TimeIntegrationScheme.timeSchemeCnExplicitIteration }

/-- The same configuration in anelastic mode. -/
def exParamsAn : SwirlLMParameters :=
  { exParams with solver_mode := SolverMode.anelastic }

/-- The same configuration requesting an unsupported scheme. -/
def exParamsBad : SwirlLMParameters :=
  { exParams with scalar_time_integration_scheme :=
      fun _ => TimeIntegrationScheme.timeSchemeRk3 }

/-- The orchestrator over the low-Mach configuration, no immersed boundary
and no debug hook. -/
def exScalars : Scalars :=
  { params := exParams, scalar_model := fun _ => exModel,
    sgs_model := exSgs, ib := none, dbg := none }

/-- The orchestrator in anelastic mode. -/
def exScalarsAn : Scalars := { exScalars with params := exParamsAn }

/-- The orchestrator with the unsupported scheme. -/
def exScalarsBad : Scalars := { exScalars with params := exParamsBad }

/-- An identity immersed-boundary stub (the call-counting collaborator). -/
def exIB : ImmersedBoundaryMethod :=
  { rhs_tag := fun n => "rhs_" ++ n,
    forcing_val := fun _ f _ => f,
    states_val := fun _ f _ _ => f }

/-- The orchestrator with the immersed-boundary stub configured. -/
def exScalarsIB : Scalars := { exScalars with ib := some exIB }

/-- The registries as initialized for the low-Mach configuration. -/
def exState : ScalarsState := initScalarsState exParams

/-- A tiny grid whose only halo cell is cell one. -/
def exGrid : Grid := { isHalo := fun i => i == 1 }

/-- Input states: unit density, uniform scalar two, conservative variable
two, zero velocity. -/
def exStates : StateMap :=
  fun k =>
    if k = "rho" then some (constF 1)
    else if k = "rho_thermal" then some (constF 1)
    else if k = "T" then some (constF 2)
    else if k = "rho_T" then some (constF 2)
    else if k = "u" then some (constF 0)
    else if k = "v" then some (constF 0)
    else if k = "w" then some (constF 0)
    else none

/-- Evaluate one output field of `prediction_step` at one cell. -/
def pred_eval (S : Scalars) (st : ScalarsState) (grid : Grid)
    (states states_0 additional_states : StateMap) (key : String) (i : Nat) :
    Option ℚ :=
  match S.prediction_step st grid states states_0 additional_states with
  | Except.ok r => (r.scalars key).map (fun f => f i)
  | Except.error _ => none

/-- Evaluate one output field of `correction_step` at one cell. -/
def corr_eval (S : Scalars) (st : ScalarsState) (grid : Grid)
    (states states_0 additional_states : StateMap) (key : String) (i : Nat) :
    Option ℚ :=
  match S.correction_step st grid states states_0 additional_states with
  | Except.ok r => (r.scalars key).map (fun f => f i)
  | Except.error _ => none

/-- Whether an `Except` result is a success. -/
def isOkB (e : Except Err PredResult) : Bool :=
  match e with
  | Except.ok _ => true
  | Except.error _ => false

/-- The state keys `prediction_step` may index, all present: density and
thermal density in both time levels, the velocity components, and, per
transported scalar, the primitive in both levels, the previous-step
conservative buffer, a boundary-condition entry and a source-registry
entry. -/
def pred_inputs_ok (S : Scalars) (st : ScalarsState)
    (states states_0 : StateMap) : Prop :=
  (states KEY_RHO).isSome ∧ (states ("rho_thermal")).isSome ∧
  (states KEY_U).isSome ∧ (states KEY_V).isSome ∧ (states KEY_W).isSome ∧
  (states_0 KEY_RHO).isSome ∧ (states_0 ("rho_thermal")).isSome ∧
  ∀ sc ∈ S.params.transport_scalars_names,
    (states sc).isSome ∧ (states_0 sc).isSome ∧
    (states_0 ("rho_" ++ sc)).isSome ∧ (st.bc sc).isSome ∧
    (st.source sc).isSome

/-- The state keys `correction_step` may index, all present. -/
def corr_inputs_ok (S : Scalars) (st : ScalarsState)
    (states : StateMap) : Prop :=
  (states KEY_RHO).isSome ∧
  ∀ sc ∈ S.params.transport_scalars_names,
    (states ("rho_" ++ sc)).isSome ∧ (st.bc sc).isSome

/-! Helper lemmas shared between the claim theorems. -/

/-- The boundary-condition manager never changes which variables have an
entry. -/
lemma bc_manager_update_isSome (additional_states : StateMap) (hw : Nat)
    (bc : StateMap) (k : String) :
    ((bc_manager_update additional_states hw bc) k).isSome = (bc k).isSome := by
  unfold bc_manager_update
  cases bc k <;> simp

/-- Which variables the constructed boundary registry covers. -/
lemma initScalarsState_bc_isSome (params : SwirlLMParameters) (k : String) :
    (((initScalarsState params).bc) k).isSome ↔
      k ∈ params.transport_scalars_names ∧ (params.bc k).isSome := by
  unfold initScalarsState
  by_cases h : k ∈ params.transport_scalars_names <;> simp [h]

/-- C6: calling `prestep` twice with the same additional-states input yields
identical boundary-condition and source registries as calling it once: the
refresh is idempotent and accumulates nothing. -/
theorem c6_prestep_idempotent (S : Scalars) (st : ScalarsState)
    (additional_states : StateMap) :
    S.prestep (S.prestep st additional_states) additional_states =
      S.prestep st additional_states := by
  unfold Scalars.prestep bc_manager_update src_manager_update
  refine ScalarsState.ext ?_ ?_
  · funext k
    simp only []
    cases h : st.bc k <;> simp [h]
    cases h2 : additional_states (bcKey k) <;> simp [h2]
  · funext k
    simp only []
    cases h : st.source k <;> simp [h]
    cases h2 : additional_states (srcKey k) <;> simp [h2]

/-- C7: provided the configuration supplies a boundary condition for every
transported scalar, the boundary-condition registry produced by `prestep`
from the freshly constructed registry has an entry exactly for the names in
the configured transported-scalar list and for no other names. -/
theorem c7_prestep_bc_registry_keys (S : Scalars)
    (additional_states : StateMap)
    (hcov : ∀ sc ∈ S.params.transport_scalars_names,
      (S.params.bc sc).isSome)
    (k : String) :
    (((S.prestep (initScalarsState S.params) additional_states).bc) k).isSome
      ↔ k ∈ S.params.transport_scalars_names := by
  simp only [Scalars.prestep, bc_manager_update_isSome,
    initScalarsState_bc_isSome]
  exact ⟨fun h => h.1, fun h => ⟨h, hcov k h⟩⟩

/-- Witness for C7 at the concrete single-scalar configuration. -/
theorem c7_witness :
    (((exScalars.prestep (initScalarsState exScalars.params) emptyMap).bc)
      ("T")).isSome ↔ ("T") ∈ exScalars.params.transport_scalars_names :=
  c7_prestep_bc_registry_keys exScalars emptyMap (by decide) ("T")

/-- C10: `exchange_scalar_halos` fails with a key error for any variable
name without an entry in the current boundary-condition registry; when the
name is in the configured transported-scalar list and the registry was built
by `prestep` for that list (with a configured boundary condition per
transported scalar), the failure branch is unreachable. -/
theorem c10_exchange_scalar_halos_lookup (S : Scalars) (st : ScalarsState)
    (grid : Grid) (f : Field) (name : String)
    (additional_states : StateMap) :
    (st.bc name = none →
      S.exchange_scalar_halos st grid f name =
        Except.error (Err.keyError name)) ∧
    ((name ∈ S.params.transport_scalars_names ∧
      st.bc = (S.prestep (initScalarsState S.params) additional_states).bc ∧
      ∀ sc ∈ S.params.transport_scalars_names, (S.params.bc sc).isSome) →
      ∃ g, S.exchange_scalar_halos st grid f name = Except.ok g) := by
  constructor
  · intro h
    simp [Scalars.exchange_scalar_halos, h]
  · rintro ⟨hmem, hbc, hcov⟩
    have hsome : (st.bc name).isSome := by
      rw [hbc]
      simp only [Scalars.prestep, bc_manager_update_isSome,
        initScalarsState_bc_isSome]
      exact ⟨hmem, hcov name hmem⟩
    obtain ⟨b, hb⟩ := Option.isSome_iff_exists.mp hsome
    exact ⟨inplace_halo_exchange grid S.params.periodic_dims b
      S.params.halo_width f, by simp [Scalars.exchange_scalar_halos, hb]⟩

/-- Witness for C10: the failure on an empty registry and the success on
the registry built for the configured list. -/
theorem c10_witness :
    (exScalars.exchange_scalar_halos { bc := emptyMap, source := fun _ => none }
      exGrid (constF 2) ("T") = Except.error (Err.keyError ("T"))) ∧
    ∃ g, exScalars.exchange_scalar_halos
      (exScalars.prestep (initScalarsState exScalars.params) emptyMap)
      exGrid (constF 2) ("T") = Except.ok g :=
  ⟨(c10_exchange_scalar_halos_lookup exScalars
      { bc := emptyMap, source := fun _ => none } exGrid (constF 2) ("T")
      emptyMap).1 rfl,
   (c10_exchange_scalar_halos_lookup exScalars
      (exScalars.prestep (initScalarsState exScalars.params) emptyMap)
      exGrid (constF 2) ("T") emptyMap).2 ⟨by decide, rfl, by decide⟩⟩

/-- C4: with a registered external source and no immersed-boundary
corrector, the assembled right-hand side for any scalar is minus the sum of
the three convection components, plus the sum of the three diffusion
components, plus the combined source, the combined source being the
registered external source added to the closure-internal source. -/
theorem c4_rhs_assembly (S : Scalars) (st : ScalarsState) (sc_name : String)
    (states helper_states : StateMap) (fs : Field)
    (hib : S.ib = none)
    (hsrc : st.source sc_name = some (some fs)) :
    ∃ fn, S.scalar_update st sc_name states helper_states = Except.ok fn ∧
      ∀ phi : Field,
        fn phi = Except.ok (fun i =>
          -(((S.scalar_model sc_name).convection_fn phi states
              helper_states).1 i +
            ((S.scalar_model sc_name).convection_fn phi states
              helper_states).2.1 i +
            ((S.scalar_model sc_name).convection_fn phi states
              helper_states).2.2 i) +
          (((S.scalar_model sc_name).diffusion_fn phi states
              helper_states).1 i +
            ((S.scalar_model sc_name).diffusion_fn phi states
              helper_states).2.1 i +
            ((S.scalar_model sc_name).diffusion_fn phi states
              helper_states).2.2 i) +
          (fs i + (S.scalar_model sc_name).source_fn phi states
            helper_states i)) := by
  refine ⟨S.scalar_function sc_name fs states helper_states, ?_, ?_⟩
  · simp [Scalars.scalar_update, resolve_source, hsrc, Except.map]
  · intro phi
    unfold Scalars.scalar_function
    rw [hib]
    rfl

/-- Witness for C4 at the concrete configuration and a constant source. -/
theorem c4_witness :
    ∃ fn, exScalars.scalar_update
        { exState with source := fun k => if k = "T" then some (some (constF 5)) else none }
        ("T") exStates exStates = Except.ok fn ∧
      ∀ phi : Field,
        fn phi = Except.ok (fun i =>
          -(((exScalars.scalar_model ("T")).convection_fn phi exStates
              exStates).1 i +
            ((exScalars.scalar_model ("T")).convection_fn phi exStates
              exStates).2.1 i +
            ((exScalars.scalar_model ("T")).convection_fn phi exStates
              exStates).2.2 i) +
          (((exScalars.scalar_model ("T")).diffusion_fn phi exStates
              exStates).1 i +
            ((exScalars.scalar_model ("T")).diffusion_fn phi exStates
              exStates).2.1 i +
            ((exScalars.scalar_model ("T")).diffusion_fn phi exStates
              exStates).2.2 i) +
          (constF 5 i + (exScalars.scalar_model ("T")).source_fn phi exStates
            exStates i)) :=
  c4_rhs_assembly exScalars
    { exState with source := fun k => if k = "T" then some (some (constF 5)) else none }
    ("T") exStates exStates (constF 5) rfl rfl

/-- C8: when a scalar's external source is absent from the registry (its
entry holds no field), RHS assembly uses an all-zero field shaped like
density as the source term instead of failing: the closure is still built
and returns the signed sum with a zero external contribution. -/
theorem c8_absent_source_zero_default (S : Scalars) (st : ScalarsState)
    (sc_name : String) (states helper_states : StateMap) (rho : Field)
    (hib : S.ib = none)
    (hsrc : st.source sc_name = some none)
    (hrho : states KEY_RHO = some rho) :
    (∀ i, zeros_like rho i = 0) ∧
    ∃ fn, S.scalar_update st sc_name states helper_states = Except.ok fn ∧
      ∀ phi : Field,
        fn phi = Except.ok (fun i =>
          -(((S.scalar_model sc_name).convection_fn phi states
              helper_states).1 i +
            ((S.scalar_model sc_name).convection_fn phi states
              helper_states).2.1 i +
            ((S.scalar_model sc_name).convection_fn phi states
              helper_states).2.2 i) +
          (((S.scalar_model sc_name).diffusion_fn phi states
              helper_states).1 i +
            ((S.scalar_model sc_name).diffusion_fn phi states
              helper_states).2.1 i +
            ((S.scalar_model sc_name).diffusion_fn phi states
              helper_states).2.2 i) +
          (zeros_like rho i + (S.scalar_model sc_name).source_fn phi states
            helper_states i)) := by
  refine ⟨fun _ => rfl,
    S.scalar_function sc_name (zeros_like rho) states helper_states, ?_, ?_⟩
  · simp [Scalars.scalar_update, resolve_source, hsrc, hrho, Except.map]
  · intro phi
    unfold Scalars.scalar_function
    rw [hib]
    rfl

/-- Witness for C8 at the concrete configuration, whose source registry
holds no field for T. -/
theorem c8_witness :
    (∀ i, zeros_like (constF 1) i = 0) ∧
    ∃ fn, exScalars.scalar_update exState ("T") exStates exStates =
        Except.ok fn ∧
      ∀ phi : Field,
        fn phi = Except.ok (fun i =>
          -(((exScalars.scalar_model ("T")).convection_fn phi exStates
              exStates).1 i +
            ((exScalars.scalar_model ("T")).convection_fn phi exStates
              exStates).2.1 i +
            ((exScalars.scalar_model ("T")).convection_fn phi exStates
              exStates).2.2 i) +
          (((exScalars.scalar_model ("T")).diffusion_fn phi exStates
              exStates).1 i +
            ((exScalars.scalar_model ("T")).diffusion_fn phi exStates
              exStates).2.1 i +
            ((exScalars.scalar_model ("T")).diffusion_fn phi exStates
              exStates).2.2 i) +
          (zeros_like (constF 1) i + (exScalars.scalar_model ("T")).source_fn
            phi exStates exStates i)) :=
  c8_absent_source_zero_default exScalars exState ("T") exStates exStates
    (constF 1) rfl rfl rfl

/-- C1: under the Crank-Nicolson explicit-iteration scheme the advance of a
scalar is selected by the solver mode.  Anelastic: the primitive is advanced
directly as old value plus dt times RHS over the new density, and the result
is halo-exchanged with the scalar's boundary condition.  Otherwise: the
conservative variable is advanced as old value plus dt times RHS, the
primitive is recomputed by dividing by the new density and only that derived
primitive is halo-exchanged; the conservative buffer is returned as the raw
arithmetic result, never halo-exchanged. -/
theorem c1_time_advance_mode_selection (S : Scalars) (st : ScalarsState)
    (grid : Grid) (states states_0 : StateMap) (rhs : Field)
    (sc_name : String) (rho sc0 rho_sc0 bc_f : Field)
    (hrho : states KEY_RHO = some rho)
    (hsc0 : states_0 sc_name = some sc0)
    (hrsc0 : states_0 ("rho_" ++ sc_name) = some rho_sc0)
    (hbc : st.bc sc_name = some bc_f) :
    (S.params.solver_mode = SolverMode.anelastic →
      S.time_advance_cn_explicit st grid states states_0 rhs sc_name =
        Except.ok (singletonMap sc_name
          (inplace_halo_exchange grid S.params.periodic_dims bc_f
            S.params.halo_width
            (fun i => sc0 i + S.params.dt * rhs i / rho i)))) ∧
    (S.params.solver_mode ≠ SolverMode.anelastic →
      S.time_advance_cn_explicit st grid states states_0 rhs sc_name =
        Except.ok (dict_update
          (singletonMap ("rho_" ++ sc_name)
            (fun i => rho_sc0 i + S.params.dt * rhs i))
          (singletonMap sc_name
            (inplace_halo_exchange grid S.params.periodic_dims bc_f
              S.params.halo_width
              (fun i => (rho_sc0 i + S.params.dt * rhs i) / rho i))))) := by
  constructor
  · intro hmode
    unfold Scalars.time_advance_cn_explicit
    rw [if_pos hmode, hrho, hsc0]
    unfold Scalars.exchange_scalar_halos
    rw [hbc]
    simp only [Except.map]
    simp only [div_eq_mul_inv]
  · intro hmode
    unfold Scalars.time_advance_cn_explicit
    rw [if_neg hmode, hrsc0, hrho]
    unfold Scalars.exchange_scalar_halos
    rw [hbc]
    simp only [Except.map]

/-- Witness for C1: the non-anelastic advance at the concrete configuration
and the anelastic advance at its anelastic twin. -/
theorem c1_witness :
    (exScalars.time_advance_cn_explicit exState exGrid exStates exStates
      (constF 1) ("T") =
      Except.ok (dict_update
        (singletonMap ("rho_" ++ "T")
          (fun i => constF 2 i + exScalars.params.dt * constF 1 i))
        (singletonMap ("T")
          (inplace_halo_exchange exGrid exScalars.params.periodic_dims
            (constF 7) exScalars.params.halo_width
            (fun i => (constF 2 i + exScalars.params.dt * constF 1 i) /
              constF 1 i))))) ∧
    (exScalarsAn.time_advance_cn_explicit exState exGrid exStates exStates
      (constF 1) ("T") =
      Except.ok (singletonMap ("T")
        (inplace_halo_exchange exGrid exScalarsAn.params.periodic_dims
          (constF 7) exScalarsAn.params.halo_width
          (fun i => constF 2 i + exScalarsAn.params.dt * constF 1 i /
            constF 1 i)))) :=
  ⟨(c1_time_advance_mode_selection exScalars exState exGrid exStates exStates
      (constF 1) ("T") (constF 1) (constF 2) (constF 2) (constF 7)
      rfl rfl rfl rfl).2 (by decide),
   (c1_time_advance_mode_selection exScalarsAn exState exGrid exStates
      exStates (constF 1) ("T") (constF 1) (constF 2) (constF 2) (constF 7)
      rfl rfl rfl rfl).1 rfl⟩

/-- Counterexample for C2: on the non-anelastic branch, after one
`prediction_step` on uniform unit density with a unit right-hand side, the
halo cell (cell one) of the exchanged primitive holds the boundary value
seven while the conservative buffer holds three there, so
`phi == rho_phi / rho` fails at a halo cell even in exact arithmetic. -/
theorem c2_counterexample :
    pred_eval exScalars exState exGrid exStates exStates emptyMap ("T") 1 =
      some 7 ∧
    pred_eval exScalars exState exGrid exStates exStates emptyMap ("rho_T") 1 =
      some 3 ∧
    exStates ("rho") = some (constF 1) ∧
    exGrid.isHalo 1 = true ∧
    (7 : ℚ) ≠ 3 / constF 1 1 := by
  refine ⟨?_, ?_, rfl, rfl, by norm_num [constF]⟩ <;>
  · simp [pred_eval, Scalars.prediction_step, Scalars.build_states_mid,
      Scalars.prediction_scalar_step, Scalars.scalar_update, resolve_source,
      Scalars.scalar_function, Scalars.time_advance_cn_explicit,
      Scalars.exchange_scalar_halos, inplace_halo_exchange, getF, mapInsert,
      singletonMap, dict_update, emptyMap, average, zeros_like, ones_like,
      constF, scalar_transport_equation, exScalars, exParams, exModel, exSgs,
      exState, exGrid, exStates, initScalarsState, KEY_RHO, KEY_U, KEY_V,
      KEY_W, List.foldlM, bind, Except.bind, pure, Except.pure, Except.map]
    try norm_num

/-- Destructuring a successful `Except.map`. -/
lemma except_map_ok_elim {α β γ : Type} {f : α → β} {e : Except γ α} {b : β}
    (h : e.map f = Except.ok b) : ∃ a, e = Except.ok a ∧ b = f a := by
  cases e with
  | error x => simp [Except.map] at h
  | ok a =>
      refine ⟨a, rfl, ?_⟩
      simp only [Except.map] at h
      exact (Except.ok.inj h).symm

/-- Destructuring a successful `Except` bind. -/
lemma except_bind_ok_elim {α β γ : Type} {f : α → Except γ β}
    {e : Except γ α} {b : β} (h : e >>= f = Except.ok b) :
    ∃ a, e = Except.ok a ∧ f a = Except.ok b := by
  cases e with
  | error x => simp [Bind.bind, Except.bind] at h
  | ok a =>
      refine ⟨a, rfl, ?_⟩
      simpa [Bind.bind, Except.bind] using h

/-- Destructuring a successful `getF`. -/
lemma getF_ok_elim {m : StateMap} {k : String} {f : Field}
    (h : getF m k = Except.ok f) : m k = some f := by
  unfold getF at h
  cases hm : m k with
  | none => rw [hm] at h; cases h
  | some g => rw [hm] at h; rw [Except.ok.inj h]

/-- A successful `getF` out of a present key. -/
lemma getF_isSome_ok {m : StateMap} {k : String} (h : (m k).isSome) :
    ∃ f, m k = some f ∧ getF m k = Except.ok f := by
  obtain ⟨f, hf⟩ := Option.isSome_iff_exists.mp h
  exact ⟨f, hf, by simp [getF, hf]⟩

/-- Appending to a fixed string on the left is injective. -/
lemma rho_prefix_inj {a b : String} (h : "rho_" ++ a = "rho_" ++ b) :
    a = b := by
  have hd := congrArg String.data h
  simp only [String.data_append] at hd
  exact String.ext (List.append_cancel_left hd)

/-- The exchange primitive keeps every interior cell. -/
lemma inplace_halo_exchange_interior (grid : Grid) (pd : List Bool)
    (bc_f : Field) (w : Nat) (f : Field) (i : Nat)
    (h : grid.isHalo i = false) :
    inplace_halo_exchange grid pd bc_f w f i = f i := by
  simp [inplace_halo_exchange, h]

/-- Destructuring a successful `exchange_scalar_halos`. -/
lemma exchange_scalar_halos_ok_elim {S : Scalars} {st : ScalarsState}
    {grid : Grid} {f : Field} {name : String} {ex : Field}
    (h : S.exchange_scalar_halos st grid f name = Except.ok ex) :
    ∃ bc_f, st.bc name = some bc_f ∧
      ex = inplace_halo_exchange grid S.params.periodic_dims bc_f
        S.params.halo_width f := by
  unfold Scalars.exchange_scalar_halos at h
  cases hb : st.bc name with
  | none => rw [hb] at h; cases h
  | some b =>
      rw [hb] at h
      exact ⟨b, rfl, (Except.ok.inj h).symm⟩

/-- Destructuring a successful anelastic time advance: the returned map is
the single exchanged primitive entry. -/
lemma time_advance_anelastic_elim {S : Scalars} {st : ScalarsState}
    {grid : Grid} {states states_0 : StateMap} {rhs : Field}
    {sc_name : String} {uv : StateMap}
    (hmode : S.params.solver_mode = SolverMode.anelastic)
    (h : S.time_advance_cn_explicit st grid states states_0 rhs sc_name =
      Except.ok uv) :
    ∃ ex, uv = singletonMap sc_name ex := by
  unfold Scalars.time_advance_cn_explicit at h
  rw [if_pos hmode] at h
  cases hrho : states KEY_RHO with
  | none => rw [hrho] at h; cases h
  | some rho =>
      cases hsc0 : states_0 sc_name with
      | none => rw [hrho, hsc0] at h; cases h
      | some sc0 =>
          rw [hrho, hsc0] at h
          obtain ⟨ex, _, hb⟩ := except_map_ok_elim h
          exact ⟨ex, hb⟩

/-- Destructuring a successful non-anelastic time advance: the returned map
holds the raw advanced conservative buffer and the exchanged primitive
obtained by division. -/
lemma time_advance_nonanelastic_elim {S : Scalars} {st : ScalarsState}
    {grid : Grid} {states states_0 : StateMap} {rhs : Field}
    {sc_name : String} {uv : StateMap}
    (hmode : ¬ S.params.solver_mode = SolverMode.anelastic)
    (h : S.time_advance_cn_explicit st grid states states_0 rhs sc_name =
      Except.ok uv) :
    ∃ rho rho_sc0 bc_f, states KEY_RHO = some rho ∧
      states_0 ("rho_" ++ sc_name) = some rho_sc0 ∧
      st.bc sc_name = some bc_f ∧
      uv = dict_update
        (singletonMap ("rho_" ++ sc_name)
          (fun i => rho_sc0 i + S.params.dt * rhs i))
        (singletonMap sc_name
          (inplace_halo_exchange grid S.params.periodic_dims bc_f
            S.params.halo_width
            (fun i => (rho_sc0 i + S.params.dt * rhs i) / rho i))) := by
  unfold Scalars.time_advance_cn_explicit at h
  rw [if_neg hmode] at h
  cases hrsc0 : states_0 ("rho_" ++ sc_name) with
  | none => rw [hrsc0] at h; cases h
  | some rho_sc0 =>
      cases hrho : states KEY_RHO with
      | none => rw [hrsc0, hrho] at h; cases h
      | some rho =>
          rw [hrsc0, hrho] at h
          obtain ⟨ex, hex, hb⟩ := except_map_ok_elim h
          obtain ⟨bc_f, hbc, hexv⟩ := exchange_scalar_halos_ok_elim hex
          refine ⟨rho, rho_sc0, bc_f, rfl, rfl, hbc, ?_⟩
          rw [hb, hexv]

/-- Destructuring a successful scalar-loop iteration of `prediction_step`
when no debug hook is attached: the accumulator is extended by exactly the
update map of one time advance. -/
lemma prediction_scalar_step_ok_elim {S : Scalars} {st : ScalarsState}
    {grid : Grid} {states states_0 additional_states states_mid : StateMap}
    {acc : StateMap} {sc_name : String} {acc' : StateMap}
    (hdbg : S.dbg = none)
    (h : S.prediction_scalar_step st grid states states_0 additional_states
      states_mid acc sc_name = Except.ok acc') :
    ∃ rhs uv,
      S.time_advance_cn_explicit st grid states states_0 rhs sc_name =
        Except.ok uv ∧
      acc' = dict_update acc uv := by
  unfold Scalars.prediction_scalar_step at h
  obtain ⟨sc_mid, hmid, h⟩ := except_bind_ok_elim h
  obtain ⟨dto, hdto, h⟩ := except_bind_ok_elim h
  obtain ⟨fn, hfn, h⟩ := except_bind_ok_elim h
  cases hsch : S.params.scalar_time_integration_scheme sc_name with
  | timeSchemeCnExplicitIteration =>
      rw [hsch] at h
      obtain ⟨rhs, hrhs, h⟩ := except_bind_ok_elim h
      obtain ⟨uv, huv, h⟩ := except_bind_ok_elim h
      rw [hdbg] at h
      exact ⟨rhs, uv, huv, (Except.ok.inj h).symm⟩
  | timeSchemeRk3 => rw [hsch] at h; cases h
  | timeSchemeUnspecified => rw [hsch] at h; cases h

/-- Destructuring a successful `prediction_step`: the mid-point states, the
scalar-loop fold, and the final immersed-boundary branch. -/
lemma prediction_step_ok_elim {S : Scalars} {st : ScalarsState} {grid : Grid}
    {states states_0 additional_states : StateMap} {r : PredResult}
    (h : S.prediction_step st grid states states_0 additional_states =
      Except.ok r) :
    ∃ states_mid us,
      S.build_states_mid states states_0 = Except.ok states_mid ∧
      S.params.transport_scalars_names.foldlM
        (S.prediction_scalar_step st grid states states_0 additional_states
          states_mid) emptyMap = Except.ok us ∧
      ((S.ib = none ∧ r.scalars = us ∧ r.ibCalls = 0) ∨
       (∃ ib, S.ib = some ib ∧
         r.scalars = ib.update_states us additional_states st.bc ∧
         r.ibCalls = 1)) := by
  unfold Scalars.prediction_step at h
  obtain ⟨mid, hmid, h⟩ := except_bind_ok_elim h
  obtain ⟨us, hus, h⟩ := except_bind_ok_elim h
  cases hib : S.ib with
  | none =>
      rw [hib] at h
      have hr := Except.ok.inj h
      exact ⟨mid, us, hmid, hus, Or.inl ⟨rfl, by rw [← hr], by rw [← hr]⟩⟩
  | some ib =>
      rw [hib] at h
      have hr := Except.ok.inj h
      exact ⟨mid, us, hmid, hus,
        Or.inr ⟨ib, rfl, by rw [← hr], by rw [← hr]⟩⟩

/-- Invariant of the non-anelastic scalar loop of `prediction_step` (no
debug hook): every processed scalar ends with both its primitive and its
conservative entry, agreeing via division by the new density at every
interior cell; keys not written by the loop keep their accumulator value. -/
lemma pred_fold_inv {S : Scalars} {st : ScalarsState} {grid : Grid}
    {states states_0 additional_states states_mid : StateMap} {rho : Field}
    (hdbg : S.dbg = none)
    (hmode : ¬ S.params.solver_mode = SolverMode.anelastic)
    (hrho : states KEY_RHO = some rho) :
    ∀ (l : List String) (acc res : StateMap),
      (∀ a ∈ l, ∀ b ∈ l, a ≠ "rho_" ++ b) →
      l.foldlM (S.prediction_scalar_step st grid states states_0
        additional_states states_mid) acc = Except.ok res →
      (∀ sc ∈ l, ∃ g h2, res sc = some g ∧ res ("rho_" ++ sc) = some h2 ∧
        ∀ i, grid.isHalo i = false → g i = h2 i / rho i) ∧
      (∀ k, k ∉ l → (∀ s ∈ l, k ≠ "rho_" ++ s) → res k = acc k) := by
  intro l
  induction l with
  | nil =>
      intro acc res _ hfold
      rw [List.foldlM_nil] at hfold
      have hres := Except.ok.inj hfold
      refine ⟨fun sc hsc => absurd hsc (List.not_mem_nil sc), ?_⟩
      intro k _ _
      rw [← hres]
  | cons sc l ih =>
      intro acc res hnice hfold
      rw [List.foldlM_cons] at hfold
      obtain ⟨acc1, hstep, hfold⟩ := except_bind_ok_elim hfold
      obtain ⟨rhs, uv, hadv, hacc1⟩ := prediction_scalar_step_ok_elim hdbg
        hstep
      obtain ⟨rho2, rho_sc0, bc_f, hrho2, hrsc0, hbc, huv⟩ :=
        time_advance_nonanelastic_elim hmode hadv
      have hrho2v : rho2 = rho := by
        rw [hrho] at hrho2
        exact (Option.some.inj hrho2).symm
      rw [hrho2v] at huv
      have hnice' : ∀ a ∈ l, ∀ b ∈ l, a ≠ "rho_" ++ b :=
        fun a ha b hb =>
          hnice a (List.mem_cons_of_mem _ ha) b (List.mem_cons_of_mem _ hb)
      obtain ⟨ihP, ihF⟩ := ih acc1 res hnice' hfold
      have hself : sc ≠ "rho_" ++ sc :=
        hnice sc (List.mem_cons_self sc l) sc (List.mem_cons_self sc l)
      have hself' : ¬ ("rho_" ++ sc = sc) := fun hx => hself hx.symm
      have hacc1_sc : acc1 sc =
          some (inplace_halo_exchange grid S.params.periodic_dims bc_f
            S.params.halo_width
            (fun i => (rho_sc0 i + S.params.dt * rhs i) / rho i)) := by
        rw [hacc1, huv]
        simp [dict_update, singletonMap]
      have hacc1_rsc : acc1 ("rho_" ++ sc) =
          some (fun i => rho_sc0 i + S.params.dt * rhs i) := by
        rw [hacc1, huv]
        simp [dict_update, singletonMap, hself']
      constructor
      · intro s hs
        by_cases hsl : s ∈ l
        · exact ihP s hsl
        · have hssc : s = sc := by
            cases List.mem_cons.mp hs with
            | inl h2 => exact h2
            | inr h2 => exact absurd h2 hsl
          subst hssc
          have hres_s : res s = acc1 s := by
            refine ihF s hsl ?_
            intro s' hs'
            exact hnice s (List.mem_cons_self s l) s'
              (List.mem_cons_of_mem _ hs')
          have hrsc_notin : ("rho_" ++ s) ∉ l := by
            intro hmem
            exact hnice ("rho_" ++ s) (List.mem_cons_of_mem _ hmem) s
              (List.mem_cons_self s l) rfl
          have hres_rsc : res ("rho_" ++ s) = acc1 ("rho_" ++ s) := by
            refine ihF ("rho_" ++ s) hrsc_notin ?_
            intro s' hs' hx
            exact hsl (rho_prefix_inj hx ▸ hs')
          refine ⟨_, _, hres_s.trans hacc1_sc, hres_rsc.trans hacc1_rsc, ?_⟩
          intro i hi
          rw [inplace_halo_exchange_interior _ _ _ _ _ _ hi]
      · intro k hk hks
        have hknot_sc : k ≠ sc := fun hx => hk (hx ▸ List.mem_cons_self sc l)
        have hknot_rsc : k ≠ "rho_" ++ sc :=
          hks sc (List.mem_cons_self sc l)
        have hres_k : res k = acc1 k := by
          refine ihF k (fun hx => hk (List.mem_cons_of_mem _ hx)) ?_
          intro s' hs'
          exact hks s' (List.mem_cons_of_mem _ hs')
        rw [hres_k, hacc1, huv]
        simp [dict_update, singletonMap, hknot_sc, hknot_rsc]

/-- `update_states` corrects values but never changes which names are
present. -/
lemma update_states_isSome (ib : ImmersedBoundaryMethod) (fields : StateMap)
    (additional_states bc : StateMap) (k : String) :
    ((ib.update_states fields additional_states bc) k).isSome =
      (fields k).isSome := by
  simp [ImmersedBoundaryMethod.update_states]

/-- Destructuring a successful scalar-loop iteration of `correction_step`:
one primitive entry is written, the immersed-boundary call counter advances
exactly when a corrector is configured, and without one the written field
agrees with the division at every interior cell. -/
lemma correction_scalar_step_ok_elim {S : Scalars} {st : ScalarsState}
    {grid : Grid} {states additional_states : StateMap}
    {acc : StateMap × Nat} {sc_name : String} {acc' : StateMap × Nat}
    (h : S.correction_scalar_step st grid states additional_states acc
      sc_name = Except.ok acc') :
    ∃ rho_sc rho ex, states ("rho_" ++ sc_name) = some rho_sc ∧
      states KEY_RHO = some rho ∧
      acc'.1 = dict_update acc.1 (singletonMap sc_name ex) ∧
      ((S.ib = none ∧ acc'.2 = acc.2 ∧
        ∀ i, grid.isHalo i = false → ex i = rho_sc i / rho i) ∨
       (∃ ib, S.ib = some ib ∧ acc'.2 = acc.2 + 1)) := by
  unfold Scalars.correction_scalar_step at h
  obtain ⟨rho_sc, hrsc, h⟩ := except_bind_ok_elim h
  obtain ⟨rho, hrho, h⟩ := except_bind_ok_elim h
  obtain ⟨r, hr, h⟩ := except_bind_ok_elim h
  obtain ⟨ex, hex, h⟩ := except_bind_ok_elim h
  have hacc' : acc' = (dict_update acc.1 (singletonMap sc_name ex), r.2) :=
    (Except.ok.inj h).symm
  obtain ⟨bc_f, hbcf, hexv⟩ := exchange_scalar_halos_ok_elim hex
  cases hib : S.ib with
  | none =>
      rw [hib] at hr
      have hrv : r = ((fun i => rho_sc i / rho i), acc.2) :=
        (Except.ok.inj hr).symm
      refine ⟨rho_sc, rho, ex, getF_ok_elim hrsc, getF_ok_elim hrho, ?_,
        Or.inl ⟨rfl, ?_, ?_⟩⟩
      · rw [hacc']
      · rw [hacc', hrv]
      · intro i hi
        rw [hexv, inplace_halo_exchange_interior _ _ _ _ _ _ hi, hrv]
  | some ib =>
      rw [hib] at hr
      revert hr
      simp only [ImmersedBoundaryMethod.update_states, singletonMap,
        if_pos rfl, Option.map_some']
      intro hr
      have hrv : r = (ib.states_val sc_name (fun i => rho_sc i / rho i)
          additional_states st.bc, acc.2 + 1) :=
        (Except.ok.inj hr).symm
      refine ⟨rho_sc, rho, ex, getF_ok_elim hrsc, getF_ok_elim hrho, ?_,
        Or.inr ⟨ib, rfl, ?_⟩⟩
      · rw [hacc']
      · rw [hacc', hrv]

/-- The immersed-boundary call count of the `correction_step` loop: zero
without a corrector, one per scalar with one. -/
lemma corr_fold_count {S : Scalars} {st : ScalarsState} {grid : Grid}
    {states additional_states : StateMap} :
    ∀ (l : List String) (acc res : StateMap × Nat),
      l.foldlM (S.correction_scalar_step st grid states additional_states)
        acc = Except.ok res →
      ((S.ib = none → res.2 = acc.2) ∧
       (∀ ib, S.ib = some ib → res.2 = acc.2 + l.length)) := by
  intro l
  induction l with
  | nil =>
      intro acc res hfold
      rw [List.foldlM_nil] at hfold
      have hres := Except.ok.inj hfold
      exact ⟨fun _ => by rw [← hres], fun _ _ => by rw [← hres]; rfl⟩
  | cons sc l ih =>
      intro acc res hfold
      rw [List.foldlM_cons] at hfold
      obtain ⟨acc1, hstep, hfold⟩ := except_bind_ok_elim hfold
      obtain ⟨rho_sc, rho, ex, _, _, _, hcase⟩ :=
        correction_scalar_step_ok_elim hstep
      obtain ⟨ih0, ih1⟩ := ih acc1 res hfold
      constructor
      · intro hib
        cases hcase with
        | inl hc => rw [ih0 hib, hc.2.1]
        | inr hc =>
            obtain ⟨ib, hib2, _⟩ := hc
            rw [hib] at hib2
            cases hib2
      · intro ib hib
        cases hcase with
        | inl hc => rw [hib] at hc; cases hc.1
        | inr hc =>
            obtain ⟨ib2, _, hcount⟩ := hc
            rw [ih1 ib hib, hcount, List.length_cons]
            omega

/-- Without a corrector, every scalar processed by the `correction_step`
loop ends with its primitive equal to the division at interior cells. -/
lemma corr_fold_inv {S : Scalars} {st : ScalarsState} {grid : Grid}
    {states additional_states : StateMap} {rho : Field}
    (hib : S.ib = none) (hrho : states KEY_RHO = some rho) :
    ∀ (l : List String) (acc res : StateMap × Nat),
      l.foldlM (S.correction_scalar_step st grid states additional_states)
        acc = Except.ok res →
      (∀ sc ∈ l, ∃ rsc g, states ("rho_" ++ sc) = some rsc ∧
        res.1 sc = some g ∧ ∀ i, grid.isHalo i = false →
          g i = rsc i / rho i) ∧
      (∀ k, k ∉ l → res.1 k = acc.1 k) := by
  intro l
  induction l with
  | nil =>
      intro acc res hfold
      rw [List.foldlM_nil] at hfold
      have hres := Except.ok.inj hfold
      exact ⟨fun sc hsc => absurd hsc (List.not_mem_nil sc),
        fun k _ => by rw [← hres]⟩
  | cons sc l ih =>
      intro acc res hfold
      rw [List.foldlM_cons] at hfold
      obtain ⟨acc1, hstep, hfold⟩ := except_bind_ok_elim hfold
      obtain ⟨rho_sc, rho2, ex, hrsc, hrho2, hacc1, hcase⟩ :=
        correction_scalar_step_ok_elim hstep
      have hrho2v : rho2 = rho := by
        rw [hrho] at hrho2
        exact (Option.some.inj hrho2).symm
      obtain ⟨ihP, ihF⟩ := ih acc1 res hfold
      have hint : ∀ i, grid.isHalo i = false → ex i = rho_sc i / rho i := by
        cases hcase with
        | inl hc => rw [← hrho2v]; exact hc.2.2
        | inr hc =>
            obtain ⟨ib, hib2, _⟩ := hc
            rw [hib] at hib2
            cases hib2
      constructor
      · intro s hs
        by_cases hsl : s ∈ l
        · exact ihP s hsl
        · have hssc : s = sc := by
            cases List.mem_cons.mp hs with
            | inl h2 => exact h2
            | inr h2 => exact absurd h2 hsl
          subst hssc
          have hres_s : res.1 s = acc1.1 s := ihF s hsl
          refine ⟨rho_sc, ex, hrsc, ?_, hint⟩
          rw [hres_s, hacc1]
          simp [dict_update, singletonMap]
      · intro k hk
        have hknot : k ≠ sc := fun hx => hk (hx ▸ List.mem_cons_self sc l)
        have hres_k : res.1 k = acc1.1 k :=
          ihF k (fun hx => hk (List.mem_cons_of_mem _ hx))
        rw [hres_k, hacc1]
        simp [dict_update, singletonMap, hknot]

/-- The key set written by the `correction_step` loop is exactly the list
of processed scalars. -/
lemma corr_fold_keys {S : Scalars} {st : ScalarsState} {grid : Grid}
    {states additional_states : StateMap} :
    ∀ (l : List String) (acc res : StateMap × Nat),
      l.foldlM (S.correction_scalar_step st grid states additional_states)
        acc = Except.ok res →
      ∀ k, (res.1 k).isSome ↔ ((acc.1 k).isSome ∨ k ∈ l) := by
  intro l
  induction l with
  | nil =>
      intro acc res hfold k
      rw [List.foldlM_nil] at hfold
      have hres := Except.ok.inj hfold
      rw [← hres]
      simp
  | cons sc l ih =>
      intro acc res hfold k
      rw [List.foldlM_cons] at hfold
      obtain ⟨acc1, hstep, hfold⟩ := except_bind_ok_elim hfold
      obtain ⟨rho_sc, rho2, ex, _, _, hacc1, _⟩ :=
        correction_scalar_step_ok_elim hstep
      have hk1 : (acc1.1 k).isSome ↔ ((acc.1 k).isSome ∨ k = sc) := by
        rw [hacc1]
        by_cases hks : k = sc <;> simp [dict_update, singletonMap, hks]
      rw [ih acc1 res hfold k, hk1, List.mem_cons]
      tauto

/-- Destructuring a successful `correction_step`. -/
lemma correction_step_ok_elim {S : Scalars} {st : ScalarsState} {grid : Grid}
    {states states_0 additional_states : StateMap} {c : PredResult}
    (h : S.correction_step st grid states states_0 additional_states =
      Except.ok c) :
    ∃ res, S.params.transport_scalars_names.foldlM
        (S.correction_scalar_step st grid states additional_states)
        (emptyMap, 0) = Except.ok res ∧
      c.scalars = res.1 ∧ c.ibCalls = res.2 := by
  unfold Scalars.correction_step at h
  obtain ⟨res, hres, h⟩ := except_bind_ok_elim h
  have hc := Except.ok.inj h
  exact ⟨res, hres, by rw [← hc], by rw [← hc]⟩

/-- Key set written by the anelastic scalar loop of `prediction_step` (no
debug hook): exactly the primitive names. -/
lemma pred_fold_keys_anelastic {S : Scalars} {st : ScalarsState}
    {grid : Grid}
    {states states_0 additional_states states_mid : StateMap}
    (hdbg : S.dbg = none)
    (hmode : S.params.solver_mode = SolverMode.anelastic) :
    ∀ (l : List String) (acc res : StateMap),
      l.foldlM (S.prediction_scalar_step st grid states states_0
        additional_states states_mid) acc = Except.ok res →
      ∀ k, (res k).isSome ↔ ((acc k).isSome ∨ k ∈ l) := by
  intro l
  induction l with
  | nil =>
      intro acc res hfold k
      rw [List.foldlM_nil] at hfold
      rw [← Except.ok.inj hfold]
      simp
  | cons sc l ih =>
      intro acc res hfold k
      rw [List.foldlM_cons] at hfold
      obtain ⟨acc1, hstep, hfold⟩ := except_bind_ok_elim hfold
      obtain ⟨rhs, uv, hadv, hacc1⟩ := prediction_scalar_step_ok_elim hdbg
        hstep
      obtain ⟨ex, huv⟩ := time_advance_anelastic_elim hmode hadv
      have hk1 : (acc1 k).isSome ↔ ((acc k).isSome ∨ k = sc) := by
        rw [hacc1, huv]
        by_cases hks : k = sc <;> simp [dict_update, singletonMap, hks]
      rw [ih acc1 res hfold k, hk1, List.mem_cons]
      tauto

/-- Key set written by the non-anelastic scalar loop of `prediction_step`
(no debug hook): the primitive names and their conservative companions. -/
lemma pred_fold_keys_nonanelastic {S : Scalars} {st : ScalarsState}
    {grid : Grid}
    {states states_0 additional_states states_mid : StateMap}
    (hdbg : S.dbg = none)
    (hmode : ¬ S.params.solver_mode = SolverMode.anelastic) :
    ∀ (l : List String) (acc res : StateMap),
      l.foldlM (S.prediction_scalar_step st grid states states_0
        additional_states states_mid) acc = Except.ok res →
      ∀ k, (res k).isSome ↔
        ((acc k).isSome ∨ k ∈ l ∨ ∃ s ∈ l, k = "rho_" ++ s) := by
  intro l
  induction l with
  | nil =>
      intro acc res hfold k
      rw [List.foldlM_nil] at hfold
      rw [← Except.ok.inj hfold]
      simp
  | cons sc l ih =>
      intro acc res hfold k
      rw [List.foldlM_cons] at hfold
      obtain ⟨acc1, hstep, hfold⟩ := except_bind_ok_elim hfold
      obtain ⟨rhs, uv, hadv, hacc1⟩ := prediction_scalar_step_ok_elim hdbg
        hstep
      obtain ⟨rho, rho_sc0, bc_f, _, _, _, huv⟩ :=
        time_advance_nonanelastic_elim hmode hadv
      have hk1 : (acc1 k).isSome ↔
          ((acc k).isSome ∨ (k = sc ∨ k = "rho_" ++ sc)) := by
        rw [hacc1, huv]
        by_cases hks : k = sc
        · simp [dict_update, singletonMap, hks]
        · by_cases hkr : k = "rho_" ++ sc
          · by_cases hrr : ("rho_" ++ sc) = sc <;>
              simp [dict_update, singletonMap, hks, hkr, hrr]
          · simp [dict_update, singletonMap, hks, hkr]
      have hex : (∃ s ∈ sc :: l, k = "rho_" ++ s) ↔
          (k = "rho_" ++ sc ∨ ∃ s ∈ l, k = "rho_" ++ s) := by
        constructor
        · rintro ⟨s, hs, hks⟩
          cases List.mem_cons.mp hs with
          | inl h2 => exact Or.inl (h2 ▸ hks)
          | inr h2 => exact Or.inr ⟨s, h2, hks⟩
        · rintro (h2 | ⟨s, hs, hks⟩)
          · exact ⟨sc, List.mem_cons_self sc l, h2⟩
          · exact ⟨s, List.mem_cons_of_mem _ hs, hks⟩
      rw [ih acc1 res hfold k, hk1, List.mem_cons, hex]
      tauto

/-- Binding a success just applies the continuation. -/
lemma except_ok_bind {α β γ : Type} (a : α) (f : α → Except γ β) :
    (Except.ok a : Except γ α) >>= f = f a := rfl

/-- Presence of a key through `dict_update`. -/
lemma dict_update_isSome (m u : StateMap) (k : String) :
    ((dict_update m u) k).isSome ↔ ((u k).isSome ∨ (m k).isSome) := by
  unfold dict_update
  cases u k <;> simp

/-- `update_forcing` never changes which names are present. -/
lemma update_forcing_isSome (ib : ImmersedBoundaryMethod)
    (fields helper_states : StateMap) (k : String) :
    ((ib.update_forcing fields helper_states) k).isSome =
      (helper_states k).isSome := by
  simp [ImmersedBoundaryMethod.update_forcing]

/-- The RHS helper states always carry the boundary-specific RHS name. -/
lemma ib_helper_states_rhs_isSome (rhs_name : String) (rhs : Field)
    (additional_states : StateMap) :
    ((ib_helper_states rhs_name rhs additional_states) rhs_name).isSome := by
  unfold ib_helper_states
  have h0 : ((singletonMap rhs_name rhs) rhs_name).isSome := by
    simp [singletonMap]
  cases h1 : additional_states ("ib_interior_mask") <;>
    cases h2 : additional_states ("ib_boundary") <;>
    simp only [] <;>
    simp [dict_update_isSome, h0]

/-- The immersed-boundary forcing substitution always succeeds: the
collaborator returns a corrected RHS for every presented name. -/
lemma ib_rhs_correction_ok (ib : ImmersedBoundaryMethod) (sc_name : String)
    (rho phi rhs : Field) (additional_states : StateMap) :
    ∃ g, ib_rhs_correction ib sc_name rho phi rhs additional_states =
      Except.ok g := by
  have hsome : ((ib.update_forcing
      (singletonMap ("rho_" ++ sc_name) (fun i => rho i * phi i))
      (ib_helper_states (ib.ib_rhs_name ("rho_" ++ sc_name)) rhs
        additional_states))
      (ib.ib_rhs_name ("rho_" ++ sc_name))).isSome := by
    rw [update_forcing_isSome]
    exact ib_helper_states_rhs_isSome _ _ _
  obtain ⟨g, hg⟩ := Option.isSome_iff_exists.mp hsome
  unfold ib_rhs_correction
  rw [hg]
  exact ⟨g, rfl⟩

/-- The RHS closure always succeeds when density is present. -/
lemma scalar_function_ok {S : Scalars} (sc_name : String) (source : Field)
    {states : StateMap} (additional_states : StateMap) (phi : Field)
    (hrho : (states KEY_RHO).isSome) :
    ∃ rhsf, S.scalar_function sc_name source states additional_states phi =
      Except.ok rhsf := by
  unfold Scalars.scalar_function
  cases hib : S.ib with
  | none => exact ⟨_, rfl⟩
  | some ib =>
      obtain ⟨rho, hrho2⟩ := Option.isSome_iff_exists.mp hrho
      rw [hrho2]
      exact ib_rhs_correction_ok ib sc_name rho phi _ additional_states

/-- Source resolution succeeds when the scalar has a registry key and the
states carry density. -/
lemma resolve_source_ok {st : ScalarsState} {sc_name : String}
    {states : StateMap} (hsrc : (st.source sc_name).isSome)
    (hrho : (states KEY_RHO).isSome) :
    ∃ src, resolve_source st sc_name states = Except.ok src := by
  unfold resolve_source
  obtain ⟨v, hv⟩ := Option.isSome_iff_exists.mp hsrc
  rw [hv]
  cases v with
  | some f => exact ⟨f, rfl⟩
  | none =>
      obtain ⟨rho, hrho2⟩ := Option.isSome_iff_exists.mp hrho
      rw [hrho2]
      exact ⟨_, rfl⟩

/-- `_scalar_update` succeeds and yields a total RHS closure when the scalar
has a source-registry key and the states carry density. -/
lemma scalar_update_ok {S : Scalars} {st : ScalarsState} {sc_name : String}
    {states : StateMap} (additional_states : StateMap)
    (hsrc : (st.source sc_name).isSome)
    (hrho : (states KEY_RHO).isSome) :
    ∃ fn, S.scalar_update st sc_name states additional_states =
        Except.ok fn ∧
      ∀ phi, ∃ rhsf, fn phi = Except.ok rhsf := by
  obtain ⟨src, hsrcok⟩ := resolve_source_ok hsrc hrho
  refine ⟨S.scalar_function sc_name src states additional_states, ?_, ?_⟩
  · unfold Scalars.scalar_update
    rw [hsrcok]
    rfl
  · intro phi
    exact scalar_function_ok sc_name src additional_states phi hrho

/-- The debug-mode term map succeeds under the same conditions. -/
lemma scalar_update_terms_ok {S : Scalars} {st : ScalarsState}
    {sc_name : String} {states : StateMap} (additional_states : StateMap)
    (phi : Field) (hsrc : (st.source sc_name).isSome)
    (hrho : (states KEY_RHO).isSome) :
    ∃ t, S.scalar_update_terms st sc_name states additional_states phi =
      Except.ok t := by
  obtain ⟨src, hsrcok⟩ := resolve_source_ok hsrc hrho
  unfold Scalars.scalar_update_terms
  rw [hsrcok]
  exact ⟨_, rfl⟩

/-- The time advance succeeds when the states it indexes are present. -/
lemma time_advance_ok {S : Scalars} {st : ScalarsState} {grid : Grid}
    {states states_0 : StateMap} (rhs : Field) {sc_name : String}
    (hrho : (states KEY_RHO).isSome)
    (hsc0 : (states_0 sc_name).isSome)
    (hrsc0 : (states_0 ("rho_" ++ sc_name)).isSome)
    (hbc : (st.bc sc_name).isSome) :
    ∃ uv, S.time_advance_cn_explicit st grid states states_0 rhs sc_name =
      Except.ok uv := by
  obtain ⟨rho, hrho2⟩ := Option.isSome_iff_exists.mp hrho
  obtain ⟨sc0, hsc02⟩ := Option.isSome_iff_exists.mp hsc0
  obtain ⟨rsc0, hrsc02⟩ := Option.isSome_iff_exists.mp hrsc0
  obtain ⟨bf, hbf⟩ := Option.isSome_iff_exists.mp hbc
  unfold Scalars.time_advance_cn_explicit
  by_cases hmode : S.params.solver_mode = SolverMode.anelastic
  · rw [if_pos hmode, hrho2, hsc02]
    simp [Scalars.exchange_scalar_halos, hbf, Except.map]
  · rw [if_neg hmode, hrsc02, hrho2]
    simp [Scalars.exchange_scalar_halos, hbf, Except.map]

/-- One scalar-loop iteration of `prediction_step` succeeds when everything
it indexes is present and the configured scheme is the supported one. -/
lemma prediction_scalar_step_ok_intro {S : Scalars} {st : ScalarsState}
    {grid : Grid} {states states_0 additional_states states_mid : StateMap}
    (acc : StateMap) {sc_name : String}
    (hmidsc : (states_mid sc_name).isSome)
    (hmidrho : (states_mid KEY_RHO).isSome)
    (hu : (states KEY_U).isSome) (hv : (states KEY_V).isSome)
    (hw : (states KEY_W).isSome)
    (hsrc : (st.source sc_name).isSome)
    (hrho : (states KEY_RHO).isSome)
    (hsc0 : (states_0 sc_name).isSome)
    (hrsc0 : (states_0 ("rho_" ++ sc_name)).isSome)
    (hbc : (st.bc sc_name).isSome)
    (hsch : S.params.scalar_time_integration_scheme sc_name =
      TimeIntegrationScheme.timeSchemeCnExplicitIteration) :
    ∃ acc', S.prediction_scalar_step st grid states states_0
      additional_states states_mid acc sc_name = Except.ok acc' := by
  obtain ⟨scm, hscm2, hgscm⟩ := getF_isSome_ok hmidsc
  unfold Scalars.prediction_scalar_step
  rw [hgscm, except_ok_bind]
  try simp only []
  by_cases hsgs : S.params.use_sgs
  · obtain ⟨u, hu2, hgu⟩ := getF_isSome_ok hu
    obtain ⟨v, hv2, hgv⟩ := getF_isSome_ok hv
    obtain ⟨w, hw2, hgw⟩ := getF_isSome_ok hw
    rw [if_pos hsgs, hgu, except_ok_bind]
    try simp only []
    rw [hgv, except_ok_bind]
    try simp only []
    rw [hgw, except_ok_bind]
    try simp only []
    rw [pure_bind]
    try simp only []
    obtain ⟨fn, hfn, hfnphi⟩ := scalar_update_ok
      (dict_update (singletonMap ("diffusivity")
        (fun i => S.params.diffusivity sc_name +
          S.sgs_model.turbulent_diffusivity scm (u, v, w)
            additional_states i)) additional_states) hsrc hmidrho
    rw [hfn, except_ok_bind]
    try simp only []
    rw [hsch]
    try simp only []
    obtain ⟨rhsf, hrhsf⟩ := hfnphi scm
    rw [hrhsf, except_ok_bind]
    try simp only []
    obtain ⟨uv, huv⟩ := time_advance_ok rhsf hrho hsc0 hrsc0 hbc
    rw [huv, except_ok_bind]
    try simp only []
    cases hdbg : S.dbg with
    | none => exact ⟨_, rfl⟩
    | some dbg =>
        obtain ⟨t, ht⟩ := scalar_update_terms_ok
          (dict_update (singletonMap ("diffusivity")
            (fun i => S.params.diffusivity sc_name +
              S.sgs_model.turbulent_diffusivity scm (u, v, w)
                additional_states i)) additional_states) scm hsrc hmidrho
        rw [ht]
        exact ⟨_, rfl⟩
  · rw [if_neg hsgs, pure_bind]
    try simp only []
    obtain ⟨fn, hfn, hfnphi⟩ := scalar_update_ok
      (dict_update (singletonMap ("diffusivity")
        (fun i => S.params.diffusivity sc_name * ones_like scm i))
        additional_states) hsrc hmidrho
    rw [hfn, except_ok_bind]
    try simp only []
    rw [hsch]
    try simp only []
    obtain ⟨rhsf, hrhsf⟩ := hfnphi scm
    rw [hrhsf, except_ok_bind]
    try simp only []
    obtain ⟨uv, huv⟩ := time_advance_ok rhsf hrho hsc0 hrsc0 hbc
    rw [huv, except_ok_bind]
    try simp only []
    cases hdbg : S.dbg with
    | none => exact ⟨_, rfl⟩
    | some dbg =>
        obtain ⟨t, ht⟩ := scalar_update_terms_ok
          (dict_update (singletonMap ("diffusivity")
            (fun i => S.params.diffusivity sc_name * ones_like scm i))
            additional_states) scm hsrc hmidrho
        rw [ht]
        exact ⟨_, rfl⟩

/-- Binding an error keeps the error. -/
lemma except_error_bind {α β γ : Type} (e : γ) (f : α → Except γ β) :
    (Except.error e : Except γ α) >>= f = Except.error e := rfl

/-- Presence of a key through `mapInsert`. -/
lemma mapInsert_isSome (m : StateMap) (k : String) (v : Field) (x : String) :
    ((mapInsert m k v) x).isSome ↔ (x = k ∨ (m x).isSome) := by
  by_cases h : x = k <;> simp [mapInsert, h]

/-- One scalar-loop iteration of `prediction_step` hits the fatal
configuration error when the configured scheme is not the supported one,
regardless of everything else. -/
lemma prediction_scalar_step_bad_scheme {S : Scalars} {st : ScalarsState}
    {grid : Grid} {states states_0 additional_states states_mid : StateMap}
    (acc : StateMap) {sc_name : String}
    (hmidsc : (states_mid sc_name).isSome)
    (hmidrho : (states_mid KEY_RHO).isSome)
    (hu : (states KEY_U).isSome) (hv : (states KEY_V).isSome)
    (hw : (states KEY_W).isSome)
    (hsrc : (st.source sc_name).isSome)
    (hsch : ¬ S.params.scalar_time_integration_scheme sc_name =
      TimeIntegrationScheme.timeSchemeCnExplicitIteration) :
    ∃ msg, S.prediction_scalar_step st grid states states_0
      additional_states states_mid acc sc_name =
      Except.error (Err.valueError msg) := by
  obtain ⟨scm, hscm2, hgscm⟩ := getF_isSome_ok hmidsc
  unfold Scalars.prediction_scalar_step
  rw [hgscm, except_ok_bind]
  try simp only []
  by_cases hsgs : S.params.use_sgs
  · obtain ⟨u, hu2, hgu⟩ := getF_isSome_ok hu
    obtain ⟨v, hv2, hgv⟩ := getF_isSome_ok hv
    obtain ⟨w, hw2, hgw⟩ := getF_isSome_ok hw
    rw [if_pos hsgs, hgu, except_ok_bind]
    try simp only []
    rw [hgv, except_ok_bind]
    try simp only []
    rw [hgw, except_ok_bind]
    try simp only []
    rw [pure_bind]
    try simp only []
    obtain ⟨fn, hfn, _⟩ := scalar_update_ok
      (dict_update (singletonMap ("diffusivity")
        (fun i => S.params.diffusivity sc_name +
          S.sgs_model.turbulent_diffusivity scm (u, v, w)
            additional_states i)) additional_states) hsrc hmidrho
    rw [hfn, except_ok_bind]
    try simp only []
    cases hs2 : S.params.scalar_time_integration_scheme sc_name with
    | timeSchemeCnExplicitIteration => exact absurd hs2 hsch
    | timeSchemeRk3 => exact ⟨_, rfl⟩
    | timeSchemeUnspecified => exact ⟨_, rfl⟩
  · rw [if_neg hsgs, pure_bind]
    try simp only []
    obtain ⟨fn, hfn, _⟩ := scalar_update_ok
      (dict_update (singletonMap ("diffusivity")
        (fun i => S.params.diffusivity sc_name * ones_like scm i))
        additional_states) hsrc hmidrho
    rw [hfn, except_ok_bind]
    try simp only []
    cases hs2 : S.params.scalar_time_integration_scheme sc_name with
    | timeSchemeCnExplicitIteration => exact absurd hs2 hsch
    | timeSchemeRk3 => exact ⟨_, rfl⟩
    | timeSchemeUnspecified => exact ⟨_, rfl⟩

/-- The mid-point fold of `build_states_mid` succeeds and covers the
processed names while keeping every present key present. -/
lemma mid_fold_ok (states states_0 : StateMap) :
    ∀ (l : List String) (m0 : StateMap),
      (∀ sc ∈ l, (states sc).isSome ∧ (states_0 sc).isSome) →
      ∃ mid, l.foldlM (fun m sc_name => do
          let a ← getF states sc_name
          let b ← getF states_0 sc_name
          pure (mapInsert m sc_name (average a b))) m0 = Except.ok mid ∧
        (∀ k, (m0 k).isSome → (mid k).isSome) ∧
        (∀ sc ∈ l, (mid sc).isSome) := by
  intro l
  induction l with
  | nil =>
      intro m0 _
      exact ⟨m0, rfl, fun k h => h,
        fun sc hsc => absurd hsc (List.not_mem_nil sc)⟩
  | cons sc l ih =>
      intro m0 hp
      obtain ⟨h1, h2⟩ := hp sc (List.mem_cons_self sc l)
      obtain ⟨a, ha2, hga⟩ := getF_isSome_ok h1
      obtain ⟨b, hb2, hgb⟩ := getF_isSome_ok h2
      obtain ⟨mid, hmid, hpres, hall⟩ := ih (mapInsert m0 sc (average a b))
        (fun s hs => hp s (List.mem_cons_of_mem _ hs))
      refine ⟨mid, ?_, ?_, ?_⟩
      · rw [List.foldlM_cons, hga, except_ok_bind]
        try simp only []
        rw [hgb, except_ok_bind]
        try simp only []
        rw [pure_bind]
        exact hmid
      · intro k hk
        exact hpres k ((mapInsert_isSome _ _ _ _).mpr (Or.inr hk))
      · intro s hs
        cases List.mem_cons.mp hs with
        | inl he =>
            rw [he]
            exact hpres sc ((mapInsert_isSome _ _ _ _).mpr (Or.inl rfl))
        | inr he => exact hall s he

/-- `build_states_mid` succeeds when its inputs are present, and the result
carries density and every transported scalar. -/
lemma build_states_mid_ok {S : Scalars} {states states_0 : StateMap}
    (h1 : (states KEY_RHO).isSome) (h2 : (states ("rho_thermal")).isSome)
    (h3 : (states_0 KEY_RHO).isSome)
    (h4 : (states_0 ("rho_thermal")).isSome)
    (h5 : ∀ sc ∈ S.params.transport_scalars_names,
      (states sc).isSome ∧ (states_0 sc).isSome) :
    ∃ mid, S.build_states_mid states states_0 = Except.ok mid ∧
      (mid KEY_RHO).isSome ∧
      (∀ sc ∈ S.params.transport_scalars_names, (mid sc).isSome) := by
  obtain ⟨rho, hrho2, hgrho⟩ := getF_isSome_ok h1
  obtain ⟨rth, hrth2, hgrth⟩ := getF_isSome_ok h2
  obtain ⟨rho0, hrho02, hgrho0⟩ := getF_isSome_ok h3
  obtain ⟨rth0, hrth02, hgrth0⟩ := getF_isSome_ok h4
  obtain ⟨mid, hmid, hpres, hall⟩ := mid_fold_ok states states_0
    S.params.transport_scalars_names
    (mapInsert (mapInsert states KEY_RHO (average rho rho0)) ("rho_thermal")
      (average rth rth0)) h5
  refine ⟨mid, ?_, ?_, hall⟩
  · unfold Scalars.build_states_mid
    rw [hgrho, except_ok_bind]
    try simp only []
    rw [hgrho0, except_ok_bind]
    try simp only []
    rw [hgrth, except_ok_bind]
    try simp only []
    rw [hgrth0, except_ok_bind]
    try simp only []
    exact hmid
  · refine hpres KEY_RHO ?_
    refine (mapInsert_isSome _ _ _ _).mpr (Or.inr ?_)
    exact (mapInsert_isSome _ _ _ _).mpr (Or.inl rfl)

/-- The scalar loop of `prediction_step` succeeds when every processed
scalar has its keys present and the supported scheme configured. -/
lemma pred_fold_ok {S : Scalars} {st : ScalarsState} {grid : Grid}
    {states states_0 additional_states states_mid : StateMap}
    (hu : (states KEY_U).isSome) (hv : (states KEY_V).isSome)
    (hw : (states KEY_W).isSome)
    (hmidrho : (states_mid KEY_RHO).isSome)
    (hrho : (states KEY_RHO).isSome) :
    ∀ (l : List String) (acc : StateMap),
      (∀ sc ∈ l, (states_mid sc).isSome ∧ (st.source sc).isSome ∧
        (states_0 sc).isSome ∧ (states_0 ("rho_" ++ sc)).isSome ∧
        (st.bc sc).isSome ∧
        S.params.scalar_time_integration_scheme sc =
          TimeIntegrationScheme.timeSchemeCnExplicitIteration) →
      ∃ res, l.foldlM (S.prediction_scalar_step st grid states states_0
        additional_states states_mid) acc = Except.ok res := by
  intro l
  induction l with
  | nil => intro acc _; exact ⟨acc, rfl⟩
  | cons sc l ih =>
      intro acc hp
      obtain ⟨h1, h2, h3, h4, h5, h6⟩ := hp sc (List.mem_cons_self sc l)
      obtain ⟨acc1, hstep⟩ := prediction_scalar_step_ok_intro acc h1 hmidrho
        hu hv hw h2 hrho h3 h4 h5 h6
      obtain ⟨res, hres⟩ := ih acc1
        (fun s hs => hp s (List.mem_cons_of_mem _ hs))
      exact ⟨res, by rw [List.foldlM_cons, hstep, except_ok_bind, hres]⟩

/-- `prediction_step` succeeds when its inputs are present and every
transported scalar is configured with the supported scheme. -/
lemma prediction_step_ok_intro {S : Scalars} {st : ScalarsState}
    {grid : Grid} (states states_0 additional_states : StateMap)
    (hin : pred_inputs_ok S st states states_0)
    (hsch : ∀ sc ∈ S.params.transport_scalars_names,
      S.params.scalar_time_integration_scheme sc =
        TimeIntegrationScheme.timeSchemeCnExplicitIteration) :
    ∃ r, S.prediction_step st grid states states_0 additional_states =
      Except.ok r := by
  obtain ⟨h1, h2, hu, hv, hw, h3, h4, hsc⟩ := hin
  obtain ⟨mid, hmid, hmidrho, hmidall⟩ := build_states_mid_ok h1 h2 h3 h4
    (fun s hs => ⟨(hsc s hs).1, (hsc s hs).2.1⟩)
  obtain ⟨us, hus⟩ := pred_fold_ok hu hv hw hmidrho h1
    S.params.transport_scalars_names emptyMap
    (fun s hs => ⟨hmidall s hs, (hsc s hs).2.2.2.2, (hsc s hs).2.1,
      (hsc s hs).2.2.1, (hsc s hs).2.2.2.1, hsch s hs⟩)
  unfold Scalars.prediction_step
  rw [hmid, except_ok_bind]
  try simp only []
  rw [hus, except_ok_bind]
  try simp only []
  cases hib : S.ib with
  | none => exact ⟨_, rfl⟩
  | some ib => exact ⟨_, rfl⟩

/-- The scalar loop of `prediction_step` ends in the fatal configuration
error as soon as some processed scalar requests an unsupported scheme. -/
lemma pred_fold_error {S : Scalars} {st : ScalarsState} {grid : Grid}
    {states states_0 additional_states states_mid : StateMap}
    (hu : (states KEY_U).isSome) (hv : (states KEY_V).isSome)
    (hw : (states KEY_W).isSome)
    (hmidrho : (states_mid KEY_RHO).isSome)
    (hrho : (states KEY_RHO).isSome) :
    ∀ (l : List String) (acc : StateMap),
      (∀ sc ∈ l, (states_mid sc).isSome ∧ (st.source sc).isSome ∧
        (states_0 sc).isSome ∧ (states_0 ("rho_" ++ sc)).isSome ∧
        (st.bc sc).isSome) →
      (∃ sc ∈ l, ¬ S.params.scalar_time_integration_scheme sc =
        TimeIntegrationScheme.timeSchemeCnExplicitIteration) →
      ∃ msg, l.foldlM (S.prediction_scalar_step st grid states states_0
        additional_states states_mid) acc =
        Except.error (Err.valueError msg) := by
  intro l
  induction l with
  | nil =>
      intro acc _ hbad
      obtain ⟨sc, hsc, _⟩ := hbad
      exact absurd hsc (List.not_mem_nil sc)
  | cons sc l ih =>
      intro acc hp hbad
      obtain ⟨h1, h2, h3, h4, h5⟩ := hp sc (List.mem_cons_self sc l)
      by_cases hs : S.params.scalar_time_integration_scheme sc =
        TimeIntegrationScheme.timeSchemeCnExplicitIteration
      · obtain ⟨acc1, hstep⟩ := prediction_scalar_step_ok_intro acc h1
          hmidrho hu hv hw h2 hrho h3 h4 h5 hs
        have hbad2 : ∃ s ∈ l,
            ¬ S.params.scalar_time_integration_scheme s =
              TimeIntegrationScheme.timeSchemeCnExplicitIteration := by
          obtain ⟨s, hsmem, hsbad⟩ := hbad
          cases List.mem_cons.mp hsmem with
          | inl he => exact absurd (by rw [he]; exact hs) hsbad
          | inr he => exact ⟨s, he, hsbad⟩
        obtain ⟨msg, hmsg⟩ := ih acc1
          (fun s hsm => hp s (List.mem_cons_of_mem _ hsm)) hbad2
        exact ⟨msg,
          by rw [List.foldlM_cons, hstep, except_ok_bind, hmsg]⟩
      · obtain ⟨msg, hmsg⟩ := prediction_scalar_step_bad_scheme acc h1
          hmidrho hu hv hw h2 hs
        exact ⟨msg, by rw [List.foldlM_cons, hmsg, except_error_bind]⟩

/-- One scalar-loop iteration of `correction_step` succeeds when the
conservative buffer, density and the boundary entry are present. -/
lemma correction_scalar_step_ok_intro {S : Scalars} {st : ScalarsState}
    {grid : Grid} {states additional_states : StateMap}
    (acc : StateMap × Nat) {sc_name : String}
    (hrsc : (states ("rho_" ++ sc_name)).isSome)
    (hrho : (states KEY_RHO).isSome)
    (hbc : (st.bc sc_name).isSome) :
    ∃ acc', S.correction_scalar_step st grid states additional_states acc
      sc_name = Except.ok acc' := by
  obtain ⟨rsc, hrsc2, hgrsc⟩ := getF_isSome_ok hrsc
  obtain ⟨rho, hrho2, hgrho⟩ := getF_isSome_ok hrho
  obtain ⟨bf, hbf⟩ := Option.isSome_iff_exists.mp hbc
  unfold Scalars.correction_scalar_step
  rw [hgrsc, except_ok_bind]
  try simp only []
  rw [hgrho, except_ok_bind]
  try simp only []
  cases hib : S.ib with
  | none =>
      rw [pure_bind]
      try simp only []
      have hex : S.exchange_scalar_halos st grid (fun i => rsc i / rho i)
          sc_name = Except.ok (inplace_halo_exchange grid
            S.params.periodic_dims bf S.params.halo_width
            (fun i => rsc i / rho i)) := by
        simp [Scalars.exchange_scalar_halos, hbf]
      rw [hex, except_ok_bind]
      exact ⟨_, rfl⟩
  | some ib =>
      have hupd : (ib.update_states
          (singletonMap sc_name (fun i => rsc i / rho i)) additional_states
          st.bc) sc_name = some (ib.states_val sc_name
            (fun i => rsc i / rho i) additional_states st.bc) := by
        simp [ImmersedBoundaryMethod.update_states, singletonMap]
      try simp only []
      rw [hupd]
      try simp only []
      rw [pure_bind]
      try simp only []
      have hex : S.exchange_scalar_halos st grid (ib.states_val sc_name
          (fun i => rsc i / rho i) additional_states st.bc) sc_name =
          Except.ok (inplace_halo_exchange grid S.params.periodic_dims bf
            S.params.halo_width (ib.states_val sc_name
              (fun i => rsc i / rho i) additional_states st.bc)) := by
        simp [Scalars.exchange_scalar_halos, hbf]
      rw [hex, except_ok_bind]
      exact ⟨_, rfl⟩

/-- The scalar loop of `correction_step` succeeds when every processed
scalar has its keys present. -/
lemma corr_fold_ok {S : Scalars} {st : ScalarsState} {grid : Grid}
    {states additional_states : StateMap}
    (hrho : (states KEY_RHO).isSome) :
    ∀ (l : List String) (acc : StateMap × Nat),
      (∀ sc ∈ l, (states ("rho_" ++ sc)).isSome ∧ (st.bc sc).isSome) →
      ∃ res, l.foldlM (S.correction_scalar_step st grid states
        additional_states) acc = Except.ok res := by
  intro l
  induction l with
  | nil => intro acc _; exact ⟨acc, rfl⟩
  | cons sc l ih =>
      intro acc hp
      obtain ⟨h1, h2⟩ := hp sc (List.mem_cons_self sc l)
      obtain ⟨acc1, hstep⟩ := correction_scalar_step_ok_intro acc h1 hrho h2
      obtain ⟨res, hres⟩ := ih acc1
        (fun s hs => hp s (List.mem_cons_of_mem _ hs))
      exact ⟨res, by rw [List.foldlM_cons, hstep, except_ok_bind, hres]⟩

/-- `correction_step` succeeds when its inputs are present. -/
lemma correction_step_ok_intro {S : Scalars} {st : ScalarsState}
    {grid : Grid} (states states_0 additional_states : StateMap)
    (hin : corr_inputs_ok S st states) :
    ∃ c, S.correction_step st grid states states_0 additional_states =
      Except.ok c := by
  obtain ⟨h1, h2⟩ := hin
  obtain ⟨res, hres⟩ := corr_fold_ok h1 S.params.transport_scalars_names
    (emptyMap, 0) h2
  unfold Scalars.correction_step
  rw [hres, except_ok_bind]
  exact ⟨_, rfl⟩

/-- C2 (amended): on the non-anelastic branch, with no immersed-boundary
corrector and no debug hook, `phi == rho_phi / rho` holds exactly at every
interior (non-halo) cell after `prediction_step`, and `correction_step`
reproduces the primitive as the division of the conservative variable by the
untouched density at every interior cell; at halo cells the exchanged
primitive holds the boundary value while the conservative buffer is not
exchanged, so the relation need not hold there. -/
theorem c2_interior_conservative_consistency (S : Scalars)
    (st : ScalarsState) (grid : Grid)
    (hmode : ¬ S.params.solver_mode = SolverMode.anelastic)
    (hdbg : S.dbg = none) (hib : S.ib = none)
    (hnice : ∀ a ∈ S.params.transport_scalars_names,
      ∀ b ∈ S.params.transport_scalars_names, a ≠ "rho_" ++ b) :
    (∀ states states_0 additional_states r rho,
      states KEY_RHO = some rho →
      S.prediction_step st grid states states_0 additional_states =
        Except.ok r →
      ∀ sc ∈ S.params.transport_scalars_names,
        ∃ g h2, r.scalars sc = some g ∧
          r.scalars ("rho_" ++ sc) = some h2 ∧
          ∀ i, grid.isHalo i = false → g i = h2 i / rho i) ∧
    (∀ states states_0 additional_states c rho,
      states KEY_RHO = some rho →
      S.correction_step st grid states states_0 additional_states =
        Except.ok c →
      ∀ sc ∈ S.params.transport_scalars_names,
        ∃ rsc g, states ("rho_" ++ sc) = some rsc ∧
          c.scalars sc = some g ∧
          ∀ i, grid.isHalo i = false → g i = rsc i / rho i) := by
  constructor
  · intro states states_0 additional_states r rho hrho hp
    obtain ⟨mid, us, hmid, hfold, hcase⟩ := prediction_step_ok_elim hp
    have hscal : r.scalars = us := by
      cases hcase with
      | inl hcc => exact hcc.2.1
      | inr hcc =>
          obtain ⟨ib, hib2, _⟩ := hcc
          rw [hib] at hib2
          cases hib2
    obtain ⟨hP, _⟩ := pred_fold_inv hdbg hmode hrho
      S.params.transport_scalars_names emptyMap us hnice hfold
    intro sc hsc
    rw [hscal]
    exact hP sc hsc
  · intro states states_0 additional_states c rho hrho hc
    obtain ⟨res, hfold, hscal, _⟩ := correction_step_ok_elim hc
    obtain ⟨hP, _⟩ := corr_fold_inv hib hrho
      S.params.transport_scalars_names (emptyMap, 0) res hfold
    intro sc hsc
    rw [hscal]
    exact hP sc hsc

/-- Witness for C2 (amended) at the concrete single-scalar run. -/
theorem c2_amended_witness :
    ∃ r c,
      exScalars.prediction_step exState exGrid exStates exStates emptyMap =
        Except.ok r ∧
      exScalars.correction_step exState exGrid exStates exStates emptyMap =
        Except.ok c ∧
      (∃ g h2, r.scalars ("T") = some g ∧
        r.scalars ("rho_" ++ "T") = some h2 ∧
        ∀ i, exGrid.isHalo i = false → g i = h2 i / constF 1 i) ∧
      (∃ rsc g, exStates ("rho_" ++ "T") = some rsc ∧
        c.scalars ("T") = some g ∧
        ∀ i, exGrid.isHalo i = false → g i = rsc i / constF 1 i) := by
  obtain ⟨r, hr⟩ := @prediction_step_ok_intro exScalars exState exGrid
    exStates exStates emptyMap (by unfold pred_inputs_ok; decide) (by decide)
  obtain ⟨c, hc⟩ := @correction_step_ok_intro exScalars exState exGrid
    exStates exStates emptyMap (by unfold corr_inputs_ok; decide)
  obtain ⟨hpred, hcorr⟩ := c2_interior_conservative_consistency exScalars
    exState exGrid (by decide) rfl rfl (by decide)
  exact ⟨r, c, hr, hc,
    hpred exStates exStates emptyMap r (constF 1) rfl hr ("T") (by decide),
    hcorr exStates exStates emptyMap c (constF 1) rfl hc ("T") (by decide)⟩

/-- C3: if any transported scalar is configured with a time-integration
scheme other than Crank-Nicolson explicit iteration, `prediction_step`
terminates with the fatal `ValueError` and never silently falls back; no
updated state map is produced, so no field is mutated. -/
theorem c3_unsupported_scheme_fatal (S : Scalars) (st : ScalarsState)
    (grid : Grid) (states states_0 additional_states : StateMap)
    (hin : pred_inputs_ok S st states states_0)
    (hbad : ∃ sc ∈ S.params.transport_scalars_names,
      ¬ S.params.scalar_time_integration_scheme sc =
        TimeIntegrationScheme.timeSchemeCnExplicitIteration) :
    ∃ msg, S.prediction_step st grid states states_0 additional_states =
      Except.error (Err.valueError msg) := by
  obtain ⟨h1, h2, hu, hv, hw, h3, h4, hsc⟩ := hin
  obtain ⟨mid, hmid, hmidrho, hmidall⟩ := build_states_mid_ok h1 h2 h3 h4
    (fun s hs => ⟨(hsc s hs).1, (hsc s hs).2.1⟩)
  obtain ⟨msg, hmsg⟩ := pred_fold_error hu hv hw hmidrho h1
    S.params.transport_scalars_names emptyMap
    (fun s hs => ⟨hmidall s hs, (hsc s hs).2.2.2.2, (hsc s hs).2.1,
      (hsc s hs).2.2.1, (hsc s hs).2.2.2.1⟩) hbad
  refine ⟨msg, ?_⟩
  unfold Scalars.prediction_step
  rw [hmid, except_ok_bind]
  try simp only []
  rw [hmsg, except_error_bind]

/-- Witness for C3: the configuration requesting the Runge-Kutta scheme
fails with the configuration error. -/
theorem c3_witness :
    ∃ msg, exScalarsBad.prediction_step exState exGrid exStates exStates
      emptyMap = Except.error (Err.valueError msg) :=
  c3_unsupported_scheme_fatal exScalarsBad exState exGrid exStates exStates
    emptyMap (by unfold pred_inputs_ok; decide)
    ⟨"T", by decide, by decide⟩

/-- C5: with an immersed-boundary corrector configured, its
state-correction operation is invoked exactly once per `prediction_step`
call — applied to the full set of updated scalars after the whole scalar
loop — and exactly once per scalar per `correction_step` call. -/
theorem c5_ib_state_correction_counts (S : Scalars) (st : ScalarsState)
    (grid : Grid)
    (states states_0 states2 states2_0 additional_states : StateMap)
    (r c : PredResult) (ib0 : ImmersedBoundaryMethod)
    (hib : S.ib = some ib0)
    (hp : S.prediction_step st grid states states_0 additional_states =
      Except.ok r)
    (hc : S.correction_step st grid states2 states2_0 additional_states =
      Except.ok c) :
    r.ibCalls = 1 ∧
    c.ibCalls = S.params.transport_scalars_names.length ∧
    ∃ states_mid us,
      S.build_states_mid states states_0 = Except.ok states_mid ∧
      S.params.transport_scalars_names.foldlM
        (S.prediction_scalar_step st grid states states_0 additional_states
          states_mid) emptyMap = Except.ok us ∧
      r.scalars = ib0.update_states us additional_states st.bc := by
  obtain ⟨mid, us, hmid, hfold, hcase⟩ := prediction_step_ok_elim hp
  obtain ⟨res, hfold2, _, hcount⟩ := correction_step_ok_elim hc
  obtain ⟨_, hcnt⟩ := corr_fold_count _ _ _ hfold2
  cases hcase with
  | inl hcc =>
      rw [hib] at hcc
      cases hcc.1
  | inr hcc =>
      obtain ⟨ib, hib2, hsc, hcalls⟩ := hcc
      rw [hib] at hib2
      have hibv : ib0 = ib := Option.some.inj hib2
      refine ⟨hcalls, ?_, mid, us, hmid, hfold, ?_⟩
      · rw [hcount, hcnt ib0 hib]
        simp
      · rw [hsc, hibv]

/-- Witness for C5 at the concrete run with the identity immersed-boundary
stub. -/
theorem c5_witness :
    ∃ r c,
      exScalarsIB.prediction_step exState exGrid exStates exStates
        emptyMap = Except.ok r ∧
      exScalarsIB.correction_step exState exGrid exStates exStates
        emptyMap = Except.ok c ∧
      r.ibCalls = 1 ∧
      c.ibCalls = exScalarsIB.params.transport_scalars_names.length := by
  obtain ⟨r, hr⟩ := @prediction_step_ok_intro exScalarsIB exState exGrid
    exStates exStates emptyMap (by unfold pred_inputs_ok; decide)
    (by decide)
  obtain ⟨c, hc⟩ := @correction_step_ok_intro exScalarsIB exState exGrid
    exStates exStates emptyMap (by unfold corr_inputs_ok; decide)
  obtain ⟨h1, h2, _⟩ := c5_ib_state_correction_counts exScalarsIB exState
    exGrid exStates exStates exStates exStates emptyMap r c exIB rfl hr hc
  exact ⟨r, c, hr, hc, h1, h2⟩

/-- C9: with no debug hook, the state map returned by `prediction_step`
holds, on the non-anelastic branch, exactly the primitive key and the
conservative key of every transported scalar; on the anelastic branch
exactly the primitive keys; and `correction_step` returns exactly the
primitive keys, never the conservative ones. -/
theorem c9_returned_key_sets (S : Scalars) (st : ScalarsState) (grid : Grid)
    (states states_0 states2 states2_0 additional_states : StateMap)
    (r c : PredResult)
    (hdbg : S.dbg = none)
    (hp : S.prediction_step st grid states states_0 additional_states =
      Except.ok r)
    (hc : S.correction_step st grid states2 states2_0 additional_states =
      Except.ok c) :
    ((S.params.solver_mode = SolverMode.anelastic →
       ∀ k, (r.scalars k).isSome ↔
         k ∈ S.params.transport_scalars_names) ∧
     (¬ S.params.solver_mode = SolverMode.anelastic →
       ∀ k, (r.scalars k).isSome ↔
         (k ∈ S.params.transport_scalars_names ∨
          ∃ s ∈ S.params.transport_scalars_names, k = "rho_" ++ s))) ∧
    (∀ k, (c.scalars k).isSome ↔
      k ∈ S.params.transport_scalars_names) := by
  obtain ⟨mid, us, hmid, hfold, hcase⟩ := prediction_step_ok_elim hp
  have hscal : ∀ k, (r.scalars k).isSome = (us k).isSome := by
    cases hcase with
    | inl hcc => intro k; rw [hcc.2.1]
    | inr hcc =>
        obtain ⟨ib, hib2, hsc, _⟩ := hcc
        intro k
        rw [hsc, update_states_isSome]
  refine ⟨⟨?_, ?_⟩, ?_⟩
  · intro hmode k
    rw [show ((r.scalars k).isSome = true) = ((us k).isSome = true) from
      by rw [hscal k]]
    rw [pred_fold_keys_anelastic hdbg hmode _ _ _ hfold k]
    simp [emptyMap]
  · intro hmode k
    rw [show ((r.scalars k).isSome = true) = ((us k).isSome = true) from
      by rw [hscal k]]
    rw [pred_fold_keys_nonanelastic hdbg hmode _ _ _ hfold k]
    simp [emptyMap]
  · obtain ⟨res, hfold2, hscal2, _⟩ := correction_step_ok_elim hc
    intro k
    rw [hscal2]
    rw [corr_fold_keys _ _ _ hfold2 k]
    simp [emptyMap]

/-- Witness for C9 at the concrete non-anelastic run: the prediction result
carries both keys, the correction result only the primitive. -/
theorem c9_witness :
    ∃ r c,
      exScalars.prediction_step exState exGrid exStates exStates emptyMap =
        Except.ok r ∧
      exScalars.correction_step exState exGrid exStates exStates emptyMap =
        Except.ok c ∧
      (r.scalars ("T")).isSome ∧ (r.scalars ("rho_" ++ "T")).isSome ∧
      (c.scalars ("T")).isSome ∧ ¬ (c.scalars ("rho_" ++ "T")).isSome := by
  obtain ⟨r, hr⟩ := @prediction_step_ok_intro exScalars exState exGrid
    exStates exStates emptyMap (by unfold pred_inputs_ok; decide)
    (by decide)
  obtain ⟨c, hc⟩ := @correction_step_ok_intro exScalars exState exGrid
    exStates exStates emptyMap (by unfold corr_inputs_ok; decide)
  obtain ⟨⟨_, hkeys⟩, hckeys⟩ := c9_returned_key_sets exScalars exState
    exGrid exStates exStates exStates exStates emptyMap r c rfl hr hc
  refine ⟨r, c, hr, hc, ?_, ?_, ?_, ?_⟩
  · exact (hkeys (by decide) ("T")).mpr (Or.inl (by decide))
  · exact (hkeys (by decide) ("rho_" ++ "T")).mpr
      (Or.inr ⟨"T", by decide, rfl⟩)
  · exact (hckeys ("T")).mpr (by decide)
  · exact fun hx => absurd ((hckeys ("rho_" ++ "T")).mp hx) (by decide)

end SwirlLM
